import Mathlib

/-!
# NFSv4 client session layer (Haiku `nfs4` add-on)

Shallow embedding of `FileInfo::ParsePath`, `FileInfo::CreateName` and
`FileInfo::UpdateFileHandles` (FileInfo.cpp) and of `GetPath`, `FileSystem::Mount`,
`FileSystem::GetInode`, `FileSystem::Migrate`, `FileSystem::AddOpenFile`,
`FileSystem::RemoveOpenFile`, `FileSystem::AddDelegation`,
`FileSystem::RemoveDelegation` and `FileSystem::GetDelegation` (FileSystem.cpp),
followed by the properties established about them.

Conventions of the embedding:
* a C string is the list of its characters before the terminating NUL;
  a `char*` that walks along a string is the suffix it points at;
* a pointer to a collaborator object (`RPC::Server*`, `Delegation*`) is a `Nat`
  (its identity), a nullable `const char*` field is an `Option String`;
* `uint32` counters are `Nat` reduced modulo `2^32`;
* the `ASSERT` macro is defined outside the sources. A NULL path handed to `ParsePath`
  ends the run with the fault `assertion` at `ASSERT(_path != NULL)`, the statement
  after which is `strdup(_path)`. In `GetInode` the result records whether the condition
  of `ASSERT(result != B_ENTRY_NOT_FOUND)` held, and the run goes on to the statement
  that follows, as the specification describes it;
* an object that `Mount` leaves to its `ObjectDeleter` is destroyed on the way out: the
  result records the run of `~FileSystem` and whether `fServer` was assigned by then;
* calls to collaborators whose code is outside this component (request builder,
  connection pool, per-server session set, root inode hooks) are recorded in
  order, and their answers are parameters.
-/

namespace NFS4

/-! ## Status codes -/

/-- Values of `status_t` that the embedded code produces or tests for;
any other code a collaborator hands back is `other`. -/
inductive status_t where
  | B_OK
  | B_ERROR
  | B_NO_MEMORY
  | B_ENTRY_NOT_FOUND
  | B_PERMISSION_DENIED
  | other (code : Int)
  deriving DecidableEq, Repr

/-! ## Request builder -/

/-- One operation appended to a compound by `RequestBuilder`. -/
inductive Op where
  | PutRootFH
  | LookUp (name : List Char)
  | LookUpUp
  | GetFH
  | Access
  | GetAttr (attrs : List Nat)
  | Verify (fileId : Nat)
  deriving DecidableEq, Repr

/-- The compound under construction: operations in the order they were issued. -/
abbrev RequestBuilder := List Op

/-! ## FileInfo::ParsePath -/

/-- `strchr(s, c)` for `c` other than NUL: offset of the first `c` in `s`,
`none` for the NULL result. -/
def strchr : List Char → Char → Option Nat
  | [], _ => none
  | x :: xs, c => if x = c then some 0 else (strchr xs c).map (· + 1)

/-- Body of the `if (pathEnd != pathStart)` block of `ParsePath` (lines 34-40) for the
NUL-terminated segment `seg` that `pathStart` designates. -/
def ParsePath.segment (seg : List Char) (st : RequestBuilder × Nat) : RequestBuilder × Nat :=
  if seg = ['.', '.'] then
    (st.1 ++ [Op.LookUpUp], (st.2 + 1) % 4294967296)
  else if seg ≠ ['.'] then
    (st.1 ++ [Op.LookUp seg], (st.2 + 1) % 4294967296)
  else
    st

/-- The `while (pathStart != NULL)` loop of `ParsePath` (lines 28-47), entered with
`pathStart` pointing at the string `pathStart`; `fuel` bounds the number of iterations and
`none` is returned when it is used up. -/
def ParsePath.loop : Nat → List Char → RequestBuilder × Nat → Option (RequestBuilder × Nat)
  | 0, _, _ => none
  | fuel + 1, pathStart, st =>
    match strchr pathStart '/' with
    | none =>
      -- pathEnd == NULL, so `pathEnd != pathStart` holds and the string is not cut
      some (ParsePath.segment pathStart st)
    | some k =>
      -- pathEnd == pathStart + k; `*pathEnd = 0` cuts the segment after k characters
      let st1 := if k ≠ 0 then ParsePath.segment (pathStart.take k) st else st
      -- `pathEnd[1] != 0`: something follows the slash
      if pathStart.drop (k + 1) ≠ [] then
        ParsePath.loop fuel (pathStart.drop (k + 1)) st1
      else
        some st1

/-- `FileInfo::ParsePath(req, count, _path)`. `strdupOk` tells whether `strdup(_path)`
succeeds. The result is the returned status with the builder and the count as the call
leaves them. -/
def ParsePath (strdupOk : Bool) (req : RequestBuilder) (count : Nat) (_path : List Char) :
    Option (status_t × RequestBuilder × Nat) :=
  if !strdupOk then
    some (status_t.B_NO_MEMORY, req, count)
  else
    (ParsePath.loop (_path.length + 1) _path (req, count)).map
      fun st => (status_t.B_OK, st.1, st.2)

/-! ### What the specification says about path resolution -/

/-- A path segment that produces a directive: neither empty nor `.`. -/
def isNamedSegment (seg : List Char) : Bool :=
  decide (seg ≠ []) && decide (seg ≠ ['.'])

/-- The directive of a segment: `..` ascends, anything else descends. -/
def directiveOf (seg : List Char) : Op :=
  if seg = ['.', '.'] then Op.LookUpUp else Op.LookUp seg

/-- The directive list the specification assigns to a path: split on `/`, drop the empty
segments and the `.` segments, map the remaining ones in order. -/
def specDirectives (P : List Char) : List Op :=
  ((P.splitOn '/').filter isNamedSegment).map directiveOf

/-- Number of non-empty, non-`.` segments of a path. -/
def namedSegments (P : List Char) : Nat :=
  ((P.splitOn '/').filter isNamedSegment).length

/-- The `uint32` counter after `n` executions of `count++`. -/
def bump : Nat → Nat → Nat
  | 0, c => c
  | n + 1, c => bump n ((c + 1) % 4294967296)


/-! ## The session object and its collaborators -/

/-- A server-issued file handle: an opaque byte token compared by equality. -/
structure FileHandle where
  fData : List Nat
  deriving DecidableEq, Repr

/-- A `Delegation` object as the registry sees it: its address (the `Delegation*` the
containers store) and the handle of the delegated file, `fInfo.fHandle`. -/
structure Delegation where
  addr : Nat
  fHandle : FileHandle
  deriving DecidableEq, Repr

/-- The fields of `class FileSystem` that the embedded member functions read or write.
`fServer` is the `RPC::Server*`, `fPath` the root-relative path (`none` for NULL),
`fOpenFiles` and `fDelegationList` the two `DoublyLinkedList`s (head first), and
`fHandleToDelegation` the `AVLTreeMap<FileHandle, Delegation*>` as its key/value entries. -/
structure FileSystem where
  fServer : Nat
  fPath : Option String
  fOpenFiles : List Nat
  fDelegationList : List Delegation
  fHandleToDelegation : List (FileHandle × Delegation)
  deriving DecidableEq, Repr

/-- One entry of `FSLocations::fLocations`: a published root path and the addresses of the
servers that export it (`fLocations[0 .. fCount)`). -/
structure FSLocation where
  fRootPath : String
  fLocations : List String
  deriving DecidableEq, Repr

/-- The decoded FS_LOCATIONS attribute: `fLocations[0 .. fCount)` in server-supplied order. -/
structure FSLocations where
  fRootPath : String
  fLocations : List FSLocation
  deriving DecidableEq, Repr

/-- A call that the session issues to a collaborator. `Acquire` records the address handed
to the resolver, whether the pool answered `B_OK`, and the value of `fServer` after the
call; the server argument of `RemoveFileSystem`, `AddFileSystem`, `IncUsage` and `DecUsage`
is the `RPC::Server` whose `NFS4Server` receives the call. -/
inductive Call where
  | ProbeMigration
  | GetLocations
  | Acquire (address : String) (ok : Bool) (out : Nat)
  | Release (server : Nat)
  | RemoveFileSystem (server : Nat)
  | AddFileSystem (server : Nat)
  | IncUsage (server : Nat)
  | DecUsage (server : Nat)
  deriving DecidableEq, Repr

/-- Answers of the collaborators during one `Migrate` call.
* `ProbeMigration`: result of `fRoot->ProbeMigration()`;
* `GetLocations`: status of `fRoot->GetLocations(&values)` and the decoded attribute;
* `Acquire i j address cur`: for the `j`-th address of the `i`-th location, the status of
  `gRPCServerManager->Acquire(&fServer, &resolver, CreateNFS4Server)` and the value it
  leaves in `fServer`, which held `cur` before;
* `strdup i`: whether `strdup(locs->fLocations[i].fRootPath)` succeeds. -/
structure Collaborators where
  ProbeMigration : Bool
  GetLocations : status_t × FSLocations
  Acquire : Nat → Nat → String → Nat → status_t × Nat
  strdup : Nat → Bool

/-! ## FileSystem::Migrate -/

/-- The inner `for (j ...)` loop of `Migrate` (lines 260-279) for location `i`, from address
index `j` on. The first component is `some status` when the loop body returns from
`Migrate`, and `none` when the loop is left by `break` or by running out of addresses:
either way control continues after the inner loop. `server` is the local that saved the
value of `fServer` before the loops. -/
def Migrate.inner (env : Collaborators) (server i : Nat) (fRootPath : String) :
    Nat → List String → FileSystem × List Call → Option status_t × FileSystem × List Call
  | _, [], st => (none, st)
  | j, address :: rest, (fs, calls) =>
    let r := env.Acquire i j address fs.fServer
    let fs1 := { fs with fServer := r.2 }
    let calls1 := calls ++ [Call.Acquire address (decide (r.1 = status_t.B_OK)) r.2]
    if r.1 = status_t.B_OK then
      -- free(fPath); fPath = strdup(locs->fLocations[i].fRootPath);
      if env.strdup i then
        -- break
        (none, { fs1 with fPath := some fRootPath }, calls1)
      else
        -- fPath == NULL: Release(fServer); fServer = server; return B_NO_MEMORY
        (some status_t.B_NO_MEMORY, { fs1 with fPath := none, fServer := server },
          calls1 ++ [Call.Release fs1.fServer])
    else
      Migrate.inner env server i fRootPath (j + 1) rest (fs1, calls1)

/-- The outer `for (i ...)` loop of `Migrate` (lines 259-280), from location index `i` on. -/
def Migrate.outer (env : Collaborators) (server : Nat) :
    Nat → List FSLocation → FileSystem × List Call → Option status_t × FileSystem × List Call
  | _, [], st => (none, st)
  | i, loc :: rest, st =>
    match Migrate.inner env server i loc.fRootPath 0 loc.fLocations st with
    | (some status, st1) => (some status, st1)
    | (none, st1) => Migrate.outer env server (i + 1) rest st1

/-- `FileSystem::Migrate(serv)`: the returned status, the session as the call leaves it,
and the collaborator calls it issued, in order. -/
def Migrate (env : Collaborators) (serv : Nat) (fs : FileSystem) :
    status_t × FileSystem × List Call :=
  if serv ≠ fs.fServer then
    (status_t.B_OK, fs, [])
  else if !env.ProbeMigration then
    (status_t.B_OK, fs, [Call.ProbeMigration])
  else if env.GetLocations.1 ≠ status_t.B_OK then
    (env.GetLocations.1, fs, [Call.ProbeMigration, Call.GetLocations])
  else
    let server := fs.fServer
    match Migrate.outer env server 0 env.GetLocations.2.fLocations
        (fs, [Call.ProbeMigration, Call.GetLocations]) with
    | (some status, fs1, calls) => (status, fs1, calls)
    | (none, fs1, calls) =>
      if server = fs1.fServer then
        (status_t.B_ERROR, fs1, calls ++ [Call.Release server])
      else
        (status_t.B_OK, fs1,
          calls ++ [Call.RemoveFileSystem server, Call.AddFileSystem fs1.fServer,
            Call.Release server])

/-- Modelled from the spec: the connection pool counts references (`Acquire` hands one out,
`Release` returns one; `RPC::ServerManager` is not part of the sources). The change that a
sequence of calls makes to the reference count of `server`. -/
def refCountChange (calls : List Call) (server : Nat) : Int :=
  ((calls.filter fun c => match c with
      | Call.Acquire _ true out => decide (out = server)
      | _ => false).length : Int)
    - (calls.count (Call.Release server) : Int)

/-- The calls that touch a per-server session set. -/
def Call.isRegistration : Call → Bool
  | Call.RemoveFileSystem _ => true
  | Call.AddFileSystem _ => true
  | _ => false

/-! ## Open-state and delegation registries -/

/-- `FileSystem::AddOpenFile(state)`. -/
def AddOpenFile (state : Nat) (fs : FileSystem) : FileSystem × List Call :=
  ({ fs with fOpenFiles := state :: fs.fOpenFiles }, [Call.IncUsage fs.fServer])

/-- `FileSystem::RemoveOpenFile(state)`. -/
def RemoveOpenFile (state : Nat) (fs : FileSystem) : FileSystem × List Call :=
  ({ fs with fOpenFiles := fs.fOpenFiles.erase state }, [Call.DecUsage fs.fServer])

/-- Modelled from the spec: `AVLTreeMap::Remove(key)` drops the entry of `key`, if any
(the container is not part of the sources). -/
def AVLTreeMap.Remove (m : List (FileHandle × Delegation)) (key : FileHandle) :
    List (FileHandle × Delegation) :=
  m.filter fun e => decide (e.1 ≠ key)

/-- Modelled from the spec: `AVLTreeMap::Insert(key, value)` adds an entry for a key that has
none and leaves the map alone otherwise (the container is not part of the sources). -/
def AVLTreeMap.Insert (m : List (FileHandle × Delegation)) (key : FileHandle)
    (value : Delegation) : List (FileHandle × Delegation) :=
  if m.any (fun e => decide (e.1 = key)) then m else (key, value) :: m

/-- Modelled from the spec: `AVLTreeMap::Find(key)`, `none` when the iterator has no
current entry. -/
def AVLTreeMap.Find (m : List (FileHandle × Delegation)) (key : FileHandle) :
    Option Delegation :=
  (m.find? fun e => decide (e.1 = key)).map Prod.snd

/-- `FileSystem::AddDelegation(delegation)` (lines 355-366). -/
def AddDelegation (delegation : Delegation) (fs : FileSystem) : FileSystem :=
  -- fDelegationList.InsertBefore(fDelegationList.Head(), delegation)
  let list := delegation :: fs.fDelegationList
  -- fHandleToDelegation.Remove(handle); fHandleToDelegation.Insert(handle, delegation)
  let map := AVLTreeMap.Insert (AVLTreeMap.Remove fs.fHandleToDelegation delegation.fHandle)
    delegation.fHandle delegation
  { fs with fDelegationList := list, fHandleToDelegation := map }

/-- `FileSystem::RemoveDelegation(delegation)` (lines 369-378). -/
def RemoveDelegation (delegation : Delegation) (fs : FileSystem) : FileSystem :=
  { fs with
    fDelegationList := fs.fDelegationList.erase delegation
    fHandleToDelegation := AVLTreeMap.Remove fs.fHandleToDelegation delegation.fHandle }

/-- `FileSystem::GetDelegation(handle)`, `none` for NULL. -/
def GetDelegation (handle : FileHandle) (fs : FileSystem) : Option Delegation :=
  AVLTreeMap.Find fs.fHandleToDelegation handle

/-- A registry operation issued by a caller. -/
inductive RegistryOp where
  | add (d : Delegation)
  | remove (d : Delegation)
  deriving DecidableEq, Repr

/-- The session after a sequence of registry operations, first operation first. -/
def runRegistry : List RegistryOp → FileSystem → FileSystem
  | [], fs => fs
  | RegistryOp.add d :: ops, fs => runRegistry ops (AddDelegation d fs)
  | RegistryOp.remove d :: ops, fs => runRegistry ops (RemoveDelegation d fs)

/-- The `Acquire` entries of a call sequence. -/
def Call.isAcquire : Call → Bool
  | Call.Acquire _ _ _ => true
  | _ => false

/-- The `Release` entries of a call sequence. -/
def Call.isRelease : Call → Bool
  | Call.Release _ => true
  | _ => false

/-! ## Concrete sessions and collaborator behaviours -/

/-- A session mounted on server 1 with root-relative path `/old` and empty registries. -/
def sessionAt1 : FileSystem where
  fServer := 1
  fPath := some "/old"
  fOpenFiles := []
  fDelegationList := []
  fHandleToDelegation := []

/-- Two replica locations, each with one address. -/
def twoReplicas : FSLocations where
  fRootPath := "/"
  fLocations := [⟨"/a", ["h1"]⟩, ⟨"/b", ["h2"]⟩]

/-- One replica location with one address. -/
def oneReplica : FSLocations where
  fRootPath := "/"
  fLocations := [⟨"/a", ["h1"]⟩]

/-- Both replicas of `twoReplicas` are reachable: the address of location `i` is served by
server `i + 2`; every allocation succeeds. -/
def envBothReachable : Collaborators where
  ProbeMigration := true
  GetLocations := (status_t.B_OK, twoReplicas)
  Acquire := fun i _ _ _ => (status_t.B_OK, i + 2)
  strdup := fun _ => true

/-- The replica of `oneReplica` is reachable (server 2) but duplicating its root path
fails. -/
def envNoMemory : Collaborators where
  ProbeMigration := true
  GetLocations := (status_t.B_OK, oneReplica)
  Acquire := fun _ _ _ _ => (status_t.B_OK, 2)
  strdup := fun _ => false

/-- No replica of `twoReplicas` is reachable: every `Acquire` fails and leaves its output
untouched. -/
def envUnreachable : Collaborators where
  ProbeMigration := true
  GetLocations := (status_t.B_OK, twoReplicas)
  Acquire := fun _ _ _ cur => (status_t.B_ERROR, cur)
  strdup := fun _ => true

/-- The pool answers every `Acquire` with a reference to server 1. -/
def envSameServer : Collaborators where
  ProbeMigration := true
  GetLocations := (status_t.B_OK, oneReplica)
  Acquire := fun _ _ _ _ => (status_t.B_OK, 1)
  strdup := fun _ => true

/-- Two distinct delegation objects for the same file handle. -/
def delegationA : Delegation := ⟨100, ⟨[7]⟩⟩

/-- The second delegation object for the handle of `delegationA`. -/
def delegationB : Delegation := ⟨200, ⟨[7]⟩⟩

/-! ## Sequences of open-state operations -/

/-- An open-state operation issued by a caller. -/
inductive OpenOp where
  | add (state : Nat)
  | remove (state : Nat)
  deriving DecidableEq, Repr

/-- One `AddOpenFile` or `RemoveOpenFile` call; the collaborator calls it issues are appended
to the ones issued so far. -/
def stepOpenFile (op : OpenOp) (st : FileSystem × List Call) : FileSystem × List Call :=
  match op with
  | OpenOp.add state => ((AddOpenFile state st.1).1, st.2 ++ (AddOpenFile state st.1).2)
  | OpenOp.remove state => ((RemoveOpenFile state st.1).1, st.2 ++ (RemoveOpenFile state st.1).2)

/-- The session and the collaborator calls after a sequence of open-state operations,
first operation first. -/
def runOpenFiles : List OpenOp → FileSystem × List Call → FileSystem × List Call
  | [], st => st
  | op :: ops, st => runOpenFiles ops (stepOpenFile op st)

/-- Every add inserts a state that is not in the open-state list at that moment and every
remove targets a state that is. -/
def admissible : List OpenOp → FileSystem → Bool
  | [], _ => true
  | OpenOp.add state :: ops, fs =>
    !fs.fOpenFiles.contains state && admissible ops (AddOpenFile state fs).1
  | OpenOp.remove state :: ops, fs =>
    fs.fOpenFiles.contains state && admissible ops (RemoveOpenFile state fs).1

/-- Number of adds in a sequence of open-state operations. -/
def countAdds : List OpenOp → Nat
  | [] => 0
  | OpenOp.add _ :: ops => countAdds ops + 1
  | OpenOp.remove _ :: ops => countAdds ops

/-- Number of removes in a sequence of open-state operations. -/
def countRemoves : List OpenOp → Nat
  | [] => 0
  | OpenOp.add _ :: ops => countRemoves ops
  | OpenOp.remove _ :: ops => countRemoves ops + 1

/-- Modelled from the spec: `IncUsage` increments and `DecUsage` decrements the usage
counter of a server (`NFS4Server` is not part of the sources). The change that a sequence
of calls makes to the usage counter of `server`. -/
def usageChange (calls : List Call) (server : Nat) : Int :=
  (calls.count (Call.IncUsage server) : Int) - (calls.count (Call.DecUsage server) : Int)

/-- A delegation for another file handle than `delegationA`. -/
def delegationC : Delegation := ⟨300, ⟨[9]⟩⟩

/-! ## FileInfo -/

/-- The fields of `class FileInfo`: the stable file id, the cached handle and parent handle,
and the name and path strings (`none` for NULL). -/
structure FileInfo where
  fFileId : Nat
  fHandle : FileHandle
  fParent : FileHandle
  fName : Option (List Char)
  fPath : Option (List Char)
  deriving DecidableEq, Repr

/-- `FileInfo::CreateName(dirPath, name)` (lines 54-84). `allocName` tells whether
`strdup(name)` for `fName` succeeds, `allocPath` whether the allocation of the new path does
(`malloc` when `dirPath` is given, `strdup(name)` otherwise). -/
def CreateName (allocName allocPath : Bool) (dirPath : Option (List Char)) (name : List Char)
    (fi : FileInfo) : status_t × FileInfo :=
  -- free(fName); fName = strdup(name);
  if !allocName then
    (status_t.B_NO_MEMORY, { fi with fName := none })
  else
    -- free(fPath); fPath = NULL;
    let fi1 := { fi with fName := some name, fPath := none }
    match dirPath with
    | some dir =>
      if !allocPath then
        (status_t.B_NO_MEMORY, fi1)
      else
        -- strcpy(path, dirPath); strcat(path, "/"); strcat(path, name); fPath = path;
        (status_t.B_OK, { fi1 with fPath := some (dir ++ '/' :: name) })
    | none =>
      -- fPath = strdup(name); if (fPath == NULL) return B_NO_MEMORY;
      if !allocPath then
        (status_t.B_NO_MEMORY, fi1)
      else
        (status_t.B_OK, { fi1 with fPath := some name })

/-- An identity named `old` in the directory `dir`. -/
def infoOld : FileInfo where
  fFileId := 5
  fHandle := ⟨[1]⟩
  fParent := ⟨[2]⟩
  fName := some "old".toList
  fPath := some "dir/old".toList

/-! ## FileInfo::UpdateFileHandles -/

/-- Ways in which a run leaves the behaviour the code defines. -/
inductive Fault where
  | assertion
  | outOfBounds
  | nullDereference
  | fuel
  | uninitialised
  deriving DecidableEq, Repr

/-- How a run of a member function ends: it returns a status, or it stops at a fault. -/
inductive Outcome where
  | returned (status : status_t)
  | fault (f : Fault)
  deriving DecidableEq, Repr

/-- A call on the `ReplyInterpreter` of a request. -/
inductive ReplyCall where
  | PutRootFH
  | LookUp
  | Verify
  | GetFH
  | LookUpUp
  | Access
  | GetAttr
  deriving DecidableEq, Repr

/-- Answers of the collaborators during one `UpdateFileHandles` call.
* `strdupRoot`, `strdupPath`: whether the `strdup` inside the first and the second
  `ParsePath` call succeeds;
* `fileIdSupported`: result of `fs->IsAttrSupported(FATTR4_FILEID)`;
* `Send`: status of `request.Send()`;
* `Verify`, `LookUpUp`: status of `reply.Verify()` and of `reply.LookUpUp()`;
* `GetFH`, `GetFHParent`: status of `reply.GetFH(&fHandle)` and of `reply.GetFH(&fParent)`,
  each with the handle the call stores through its argument, if it stores one. -/
structure UpdateEnv where
  strdupRoot : Bool
  strdupPath : Bool
  fileIdSupported : Bool
  Send : status_t
  Verify : status_t
  GetFH : status_t × Option FileHandle
  LookUpUp : status_t
  GetFHParent : status_t × Option FileHandle

/-- What one `UpdateFileHandles` call leaves behind: how it ended, the identity, the compound
built, and the calls made on the reply, in order. -/
structure UpdateResult where
  outcome : Outcome
  info : FileInfo
  request : RequestBuilder
  reply : List ReplyCall
  deriving DecidableEq, Repr

/-- The effect of `reply.GetFH(&target)` on `target`, whose value was `old`. -/
def storeHandle (answer : status_t × Option FileHandle) (old : FileHandle) : FileHandle :=
  match answer.2 with
  | some h => h
  | none => old

/-- Lines 116-143 of `UpdateFileHandles`: from `req.GetFH()` to the end, with the compound
`req` built so far and `lookupCount` lookups to consume. -/
def UpdateFileHandles.exchange (env : UpdateEnv) (fi : FileInfo) (req : RequestBuilder)
    (lookupCount : Nat) : UpdateResult :=
  -- req.GetFH(); req.LookUpUp(); req.GetFH();
  let req1 := req ++ [Op.GetFH, Op.LookUpUp, Op.GetFH]
  if env.Send ≠ status_t.B_OK then
    ⟨Outcome.returned env.Send, fi, req1, []⟩
  else
    -- reply.PutRootFH(); for (i < lookupCount) reply.LookUp();
    let reply1 := ReplyCall.PutRootFH :: List.replicate lookupCount ReplyCall.LookUp
    if env.fileIdSupported && decide (env.Verify ≠ status_t.B_OK) then
      ⟨Outcome.returned env.Verify, fi, req1, reply1 ++ [ReplyCall.Verify]⟩
    else
      let reply2 := if env.fileIdSupported then reply1 ++ [ReplyCall.Verify] else reply1
      -- reply.GetFH(&fHandle);
      let fi1 := { fi with fHandle := storeHandle env.GetFH fi.fHandle }
      if env.LookUpUp = status_t.B_ENTRY_NOT_FOUND then
        -- fParent = fHandle; return B_OK;
        ⟨Outcome.returned status_t.B_OK, { fi1 with fParent := fi1.fHandle }, req1,
          reply2 ++ [ReplyCall.GetFH, ReplyCall.LookUpUp]⟩
      else
        -- return reply.GetFH(&fParent);
        ⟨Outcome.returned env.GetFHParent.1,
          { fi1 with fParent := storeHandle env.GetFHParent fi1.fParent }, req1,
          reply2 ++ [ReplyCall.GetFH, ReplyCall.LookUpUp, ReplyCall.GetFH]⟩

/-- `FileInfo::UpdateFileHandles(fs)` (lines 87-143) on the identity `fi`. A NULL path handed
to `ParsePath` fails its assertion. -/
def UpdateFileHandles (env : UpdateEnv) (fs : FileSystem) (fi : FileInfo) : UpdateResult :=
  -- req.PutRootFH(); uint32 lookupCount = 0;
  let req0 : RequestBuilder := [Op.PutRootFH]
  match fs.fPath with
  | none => ⟨Outcome.fault Fault.assertion, fi, req0, []⟩
  | some root =>
    match ParsePath env.strdupRoot req0 0 root.toList with
    | none => ⟨Outcome.fault Fault.fuel, fi, req0, []⟩
    | some (result1, req1, count1) =>
      if result1 ≠ status_t.B_OK then
        ⟨Outcome.returned result1, fi, req1, []⟩
      else
        match fi.fPath with
        | none => ⟨Outcome.fault Fault.assertion, fi, req1, []⟩
        | some path =>
          match ParsePath env.strdupPath req1 count1 path with
          | none => ⟨Outcome.fault Fault.fuel, fi, req1, []⟩
          | some (result2, req2, count2) =>
            if result2 ≠ status_t.B_OK then
              ⟨Outcome.returned result2, fi, req2, []⟩
            else
              -- if (fs->IsAttrSupported(FATTR4_FILEID)) req.Verify(&attr, 1);
              let req3 := if env.fileIdSupported then req2 ++ [Op.Verify fi.fFileId] else req2
              UpdateFileHandles.exchange env fi req3 count2

/-- Every step of the refresh succeeds for a root object: the final ascend answers
`B_ENTRY_NOT_FOUND`. -/
def envRefreshRoot : UpdateEnv where
  strdupRoot := true
  strdupPath := true
  fileIdSupported := true
  Send := status_t.B_OK
  Verify := status_t.B_OK
  GetFH := (status_t.B_OK, some ⟨[42]⟩)
  LookUpUp := status_t.B_ENTRY_NOT_FOUND
  GetFHParent := (status_t.B_ERROR, none)

/-- The object's handle is captured, then the final ascend fails with `B_ERROR` and so does
the parent-handle fetch, which stores nothing. -/
def envAscendFails : UpdateEnv where
  strdupRoot := true
  strdupPath := true
  fileIdSupported := true
  Send := status_t.B_OK
  Verify := status_t.B_OK
  GetFH := (status_t.B_OK, some ⟨[42]⟩)
  LookUpUp := status_t.B_ERROR
  GetFHParent := (status_t.B_ERROR, none)

/-- The request cannot be sent. -/
def envSendFails : UpdateEnv where
  strdupRoot := true
  strdupPath := true
  fileIdSupported := true
  Send := status_t.B_ERROR
  Verify := status_t.B_OK
  GetFH := (status_t.B_OK, some ⟨[42]⟩)
  LookUpUp := status_t.B_OK
  GetFHParent := (status_t.B_OK, some ⟨[43]⟩)

/-! ## GetPath and FileSystem::Mount -/

/-- `strrchr(s, c)` for `c` other than NUL: offset of the last `c` in `s`, `none` for the
NULL result. -/
def strrchr : List Char → Char → Option Nat
  | [], _ => none
  | x :: xs, c =>
    match strrchr xs c with
    | some k => some (k + 1)
    | none => if x = c then some 0 else none

/-- The `for` loop of `GetPath` (lines 69-78), entered at index `i` with `path + i` and
`root + i` as the two suffixes; the result is the final `(i, slash)`. -/
def GetPath.scan : List Char → Option (List Char) → Nat → Nat → Nat × Nat
  | [], _, i, slash => (i, slash)
  | c :: cs, root, i, slash =>
    -- if (path[i] == '/') slash = i;
    let slash1 := if c = '/' then i else slash
    match root with
    | none => (i, slash1)
    | some [] => (i, slash1)
    | some (r :: rs) =>
      -- if (path[i] != root[i] || root[i] == 0) break;
      if c ≠ r then (i, slash1) else GetPath.scan cs (some rs) (i + 1) slash1

/-- `GetPath(root, path)` (lines 62-84): `none` for the NULL result, otherwise the suffix
`path + slash`. -/
def GetPath (root : Option (List Char)) (path : List Char) : Option (List Char) :=
  let r := GetPath.scan path root 0 0
  -- if (path[i] == 0) return NULL;
  if path.drop r.1 = [] then none else some (path.drop r.2)

/-- A `FileSystemId`, the value of the FSID attribute. -/
structure FileSystemId where
  fMajor : Nat
  fMinor : Nat
  deriving DecidableEq, Repr

/-- One decoded attribute value: its attribute number and the members of `fData` that
`Mount` reads (`none` for a NULL pointer). -/
structure AttrValue where
  fAttribute : Nat
  fValue : Nat
  fPointer : Option FileSystemId
  fLocations : Option FSLocations
  deriving DecidableEq, Repr

/-- The root inode as `Mount` leaves it: the identity handed to `Inode::CreateInode` and the
name given by `SetName`. -/
structure RootInode where
  fInfo : FileInfo
  fName : List Char
  deriving DecidableEq, Repr

/-- The `FileSystem` object that `Mount` builds: the fields of `FileSystem` above together
with those that only `Mount` writes. -/
structure MountedFileSystem where
  base : FileSystem
  fSupAttrs : Nat
  fExpireType : Nat
  fFsId : FileSystemId
  fDevId : Nat
  fRoot : RootInode
  deriving DecidableEq, Repr

/-- Constants defined outside the sources and answers of the collaborators during one
`Mount` call.
* `ACCESS4_READ`, `ACCESS4_LOOKUP`: the two access bits; `FATTR4_...`: attribute numbers;
* `newFileSystem`: whether `new(std::nothrow) FileSystem` succeeds;
* `strdupPath`: whether the `strdup` inside `ParsePath` succeeds;
* `Send`: status of `request.Send()`;
* `GetFH`: status of `reply.GetFH(&fh)` and the handle it stores, if any;
* `Access`: status of `reply.Access(NULL, &allowed)` and the value of `allowed`;
* `GetAttr`: status of `reply.GetAttr(&values, &count)` and the `count` values;
* `strdupRootPath`, `strdupInfoPath`, `strdupInfoName`: whether the `strdup` of
  `locs->fRootPath`, of the `GetPath` result and of the identity's name succeeds;
* `CreateInode`: status of `Inode::CreateInode`;
* `UniversalAddress`: result of `serv->ID().UniversalAddress()`, `none` for NULL. -/
structure MountEnv where
  ACCESS4_READ : Nat
  ACCESS4_LOOKUP : Nat
  FATTR4_SUPPORTED_ATTRS : Nat
  FATTR4_FH_EXPIRE_TYPE : Nat
  FATTR4_FSID : Nat
  FATTR4_FS_LOCATIONS : Nat
  newFileSystem : Bool
  strdupPath : Bool
  Send : status_t
  GetFH : status_t × Option FileHandle
  Access : status_t × Nat
  GetAttr : status_t × List AttrValue
  strdupRootPath : Bool
  strdupInfoPath : Bool
  strdupInfoName : Bool
  CreateInode : status_t
  UniversalAddress : Option (List Char)

/-- What the `ObjectDeleter<FileSystem>` of `Mount` (line 98) does when the function is
left.
* `none`: nothing; no object was allocated, `fsDeleter.Detach()` was reached, or the run
  stopped at a fault before any return;
* `destroyUnset`: it deletes the object, and `~FileSystem` (lines 46-59) evaluates
  `fServer->PrivateData()` on an `fServer` that neither the constructor (lines 24-42) nor
  `Mount` has assigned;
* `destroy server`: it deletes the object, and `~FileSystem` runs with
  `fServer == server`. -/
inductive Cleanup where
  | none
  | destroyUnset
  | destroy (server : Nat)
  deriving DecidableEq, Repr

/-- What one `Mount` call leaves behind: the status of the `return` statement it reached or
the fault it stopped at, the session stored through `_fs` (`none` when nothing is stored),
the compound built, the calls made on the reply, the calls made on the server's session
set, and what the `ObjectDeleter` did on the way out. -/
structure MountResult where
  outcome : Outcome
  out : Option MountedFileSystem
  request : RequestBuilder
  reply : List ReplyCall
  calls : List Call
  cleanup : Cleanup
  deriving DecidableEq, Repr

/-- A `Mount` run that ends with no object to destroy: the allocation of line 95 failed,
or the run stopped at a fault. -/
def Mount.stop (outcome : Outcome) (req : RequestBuilder) (reply : List ReplyCall) :
    MountResult :=
  { outcome := outcome, out := none, request := req, reply := reply, calls := [],
    cleanup := Cleanup.none }

/-- A `return status;` of `Mount` between line 98 and `fsDeleter.Detach()`: nothing is
stored through `_fs`, and the `ObjectDeleter` deletes the object. `fServer` is the value
that `Mount` has assigned to `fs->fServer` by then, `none` before line 168. With `fServer`
assigned, `~FileSystem` takes `fServer->PrivateData()` for the server's session set, as
line 208 does, and calls `RemoveFileSystem` on it. With `fServer` unassigned, what line 48
reads is not defined, and no call of `~FileSystem` is recorded. -/
def Mount.discard (status : status_t) (fServer : Option Nat) (req : RequestBuilder)
    (reply : List ReplyCall) : MountResult :=
  match fServer with
  | none =>
    { outcome := Outcome.returned status, out := none, request := req, reply := reply,
      calls := [], cleanup := Cleanup.destroyUnset }
  | some server =>
    { outcome := Outcome.returned status, out := none, request := req, reply := reply,
      -- if (server != NULL) server->RemoveFileSystem(this);
      calls := [Call.RemoveFileSystem server], cleanup := Cleanup.destroy server }

/-- How the whole call ends: as `outcome` says, unless leaving the function destroys an
object whose `fServer` was never assigned; the read of that pointer is a fault. -/
def MountResult.completion (r : MountResult) : Outcome :=
  match r.cleanup with
  | Cleanup.destroyUnset => Outcome.fault Fault.uninitialised
  | _ => r.outcome

/-- Lines 155-161 of `Mount`: the root-relative path of the new session; an error is the
fault of the run. -/
def Mount.sessionPath (env : MountEnv) (values : List AttrValue) :
    Except Fault (Option String) :=
  if values.length = 4 then
    match values[3]? with
    | none => Except.error Fault.outOfBounds
    | some v3 =>
      if v3.fAttribute = env.FATTR4_FS_LOCATIONS then
        match v3.fLocations with
        | none => Except.error Fault.nullDereference
        | some locs =>
          -- fs->fPath = strdup(locs->fRootPath);
          Except.ok (if env.strdupRootPath then some locs.fRootPath else none)
      else
        Except.ok none
  else
    Except.ok none

/-- Lines 163-182 of `Mount`: the identity of the root object. `fsPath` is the mount path
after the leading slash was skipped, `fPath` the new session's root-relative path. The
result of `GetPath` goes to `strdup` as it is, and `strdup` of NULL is NULL. -/
def Mount.rootInfo (env : MountEnv) (fsPath : List Char) (fh : FileHandle)
    (fPath : Option String) : FileInfo :=
  -- fi.fPath = strdup(GetPath(fs->fPath, fsPath));
  let path :=
    match GetPath (fPath.map String.toList) fsPath with
    | none => none
    | some p => if env.strdupInfoPath then some p else none
  -- if (fi.fPath != NULL) { name = strrchr(fi.fPath, '/'); if (name != NULL) ... }
  let name :=
    match path with
    | none => none
    | some p =>
      match strrchr p '/' with
      | none => none
      | some k => if env.strdupInfoName then some (p.drop (k + 1)) else none
  { fFileId := 0, fHandle := fh, fParent := fh, fName := name, fPath := path }

/-- Lines 191-204 of `Mount`: the argument of the `SetName` call on the root inode, for the
mount path `fsPath` after the leading slash was skipped. -/
def Mount.rootName (env : MountEnv) (fsPath : List Char) : List Char :=
  match strrchr fsPath '/' with
  | some k => fsPath.drop (k + 1)
  | none =>
    if fsPath ≠ [] then
      fsPath
    else
      match env.UniversalAddress with
      | some address => address
      | none => "NFS4 Share".toList

/-- Line 165 of `Mount`: `if (fsPath != NULL && fsPath[0] == '/') fsPath++;`. -/
def Mount.skipSlash (fsPath : List Char) : List Char :=
  match fsPath with
  | '/' :: rest => rest
  | _ => fsPath

/-- Lines 145-213 of `Mount`, after the reply's attribute values passed the check of line
142. -/
def Mount.finish (env : MountEnv) (serv : Nat) (fsPath0 : List Char) (id : Nat)
    (fh : FileHandle) (req : RequestBuilder) (reply : List ReplyCall)
    (values : List AttrValue) : MountResult :=
  match values[0]?, values[1]?, values[2]? with
  | some v0, some v1, some v2 =>
    match Mount.sessionPath env values with
    | Except.error f => Mount.stop (Outcome.fault f) req reply
    | Except.ok fPath =>
      let fsPath := Mount.skipSlash fsPath0
      -- fs->fFsId = *fsid;
      match v2.fPointer with
      | none => Mount.stop (Outcome.fault Fault.nullDereference) req reply
      | some fsid =>
        let fi := Mount.rootInfo env fsPath fh fPath
        -- fs->fServer = serv; ... result = Inode::CreateInode(fs, fi, &inode);
        if env.CreateInode ≠ status_t.B_OK then
          Mount.discard env.CreateInode (some serv) req reply
        else
          { outcome := Outcome.returned status_t.B_OK
            out := some
              { base :=
                  { fServer := serv, fPath := fPath, fOpenFiles := [], fDelegationList := [],
                    fHandleToDelegation := [] }
                fSupAttrs := v0.fValue
                fExpireType := v1.fValue % 4294967296
                fFsId := fsid
                fDevId := id
                fRoot := { fInfo := fi, fName := Mount.rootName env fsPath } }
            request := req
            reply := reply
            -- fs->NFSServer()->AddFileSystem(fs);
            calls := [Call.AddFileSystem serv]
            -- fsDeleter.Detach();
            cleanup := Cleanup.none }
  | _, _, _ => Mount.stop (Outcome.fault Fault.outOfBounds) req reply

/-- `FileSystem::Mount(_fs, serv, fsPath, id, configuration)` (lines 87-213). Every
`return` between line 98 and line 168 leaves through the `ObjectDeleter` with `fs->fServer`
unassigned. -/
def Mount (env : MountEnv) (serv : Nat) (fsPath : List Char) (id : Nat) : MountResult :=
  if !env.newFileSystem then
    Mount.stop (Outcome.returned status_t.B_NO_MEMORY) [] []
  else
    match ParsePath env.strdupPath [Op.PutRootFH] 0 fsPath with
    | none => Mount.stop (Outcome.fault Fault.fuel) [Op.PutRootFH] []
    | some (result, req1, lookupCount) =>
      if result ≠ status_t.B_OK then
        Mount.discard result none req1 []
      else
        let req := req1 ++ [Op.GetFH, Op.Access,
          Op.GetAttr [env.FATTR4_SUPPORTED_ATTRS, env.FATTR4_FH_EXPIRE_TYPE, env.FATTR4_FSID,
            env.FATTR4_FS_LOCATIONS]]
        if env.Send ≠ status_t.B_OK then
          Mount.discard env.Send none req []
        else
          -- reply.PutRootFH(); lookupCount times reply.LookUp(); reply.GetFH(&fh);
          let reply1 := ReplyCall.PutRootFH :: List.replicate lookupCount ReplyCall.LookUp
            ++ [ReplyCall.GetFH, ReplyCall.Access]
          let fh := storeHandle env.GetFH ⟨[]⟩
          if env.Access.1 ≠ status_t.B_OK then
            Mount.discard env.Access.1 none req reply1
          else if env.Access.2 &&& (env.ACCESS4_READ ||| env.ACCESS4_LOOKUP)
              ≠ (env.ACCESS4_READ ||| env.ACCESS4_LOOKUP) then
            Mount.discard status_t.B_PERMISSION_DENIED none req reply1
          else
            let reply2 := reply1 ++ [ReplyCall.GetAttr]
            -- if (result != B_OK || count < 2) return result;
            if env.GetAttr.1 ≠ status_t.B_OK ∨ env.GetAttr.2.length < 2 then
              Mount.discard env.GetAttr.1 none req reply2
            else
              Mount.finish env serv fsPath id fh req reply2 env.GetAttr.2

/-- The last non-empty segment of a `/`-separated path, if it has one. -/
def lastNonEmptySegment (P : List Char) : Option (List Char) :=
  ((P.splitOn '/').filter fun seg => decide (seg ≠ [])).getLast?

/-- The four attribute values of a complete reply: supported attributes, handle-expiry
type, filesystem id, and locations with root path `/export`. -/
def fullAttrs : List AttrValue :=
  [⟨0, 255, none, none⟩, ⟨2, 0, none, none⟩, ⟨8, 0, some ⟨1, 2⟩, none⟩,
    ⟨24, 0, none, some ⟨"/export", []⟩⟩]

/-- Every step of the mount succeeds; the server has the universal address `10.0.0.1`. -/
def envMountOk : MountEnv where
  ACCESS4_READ := 1
  ACCESS4_LOOKUP := 2
  FATTR4_SUPPORTED_ATTRS := 0
  FATTR4_FH_EXPIRE_TYPE := 2
  FATTR4_FSID := 8
  FATTR4_FS_LOCATIONS := 24
  newFileSystem := true
  strdupPath := true
  Send := status_t.B_OK
  GetFH := (status_t.B_OK, some ⟨[42]⟩)
  Access := (status_t.B_OK, 3)
  GetAttr := (status_t.B_OK, fullAttrs)
  strdupRootPath := true
  strdupInfoPath := true
  strdupInfoName := true
  CreateInode := status_t.B_OK
  UniversalAddress := some "10.0.0.1".toList

/-- As `envMountOk`, but the attribute reply succeeds with a single value. -/
def envMountShortAttr : MountEnv :=
  { envMountOk with GetAttr := (status_t.B_OK, [⟨0, 255, none, none⟩]) }

/-- As `envMountOk`, but the server grants read access only. -/
def envMountReadOnly : MountEnv :=
  { envMountOk with Access := (status_t.B_OK, 1) }

/-! ## FileSystem::GetInode -/

/-- Answers of the collaborators during one `GetInode` call.
* `GetFileInfo id`: status of `fInoIdMap.GetFileInfo(&fi, id)` and the identity that `fi`
  holds afterwards;
* `CreateInode fi`: status of `Inode::CreateInode(this, fi, &inode)` and the inode it
  stores through its last argument. -/
structure InodeEnv where
  GetFileInfo : Nat → status_t × FileInfo
  CreateInode : FileInfo → status_t × Nat

/-- What one `GetInode` call leaves behind: how it ended, the inode stored through `_inode`
(`none` when nothing is stored), the identities handed to `Inode::CreateInode`, and whether
the condition of the `ASSERT` of line 223 held. -/
structure GetInodeResult where
  outcome : Outcome
  out : Option Nat
  created : List FileInfo
  asserted : Bool
  deriving DecidableEq, Repr

/-- Modelled from the spec: the `ASSERT` of line 223, whose macro is not part of the
sources. It is a defensive check: it yields whether its condition held, and the run goes on
to the statement that follows. -/
def GetInode.ASSERT (condition : Bool) : Bool :=
  condition

/-- `FileSystem::GetInode(id, _inode)` (lines 216-235). -/
def GetInode (env : InodeEnv) (id : Nat) : GetInodeResult :=
  let result := env.GetFileInfo id
  -- ASSERT(result != B_ENTRY_NOT_FOUND);
  let asserted := GetInode.ASSERT (decide (result.1 ≠ status_t.B_ENTRY_NOT_FOUND))
  -- if (result != B_OK) return result;
  if result.1 ≠ status_t.B_OK then
    ⟨Outcome.returned result.1, none, [], asserted⟩
  else
    let created := env.CreateInode result.2
    if created.1 ≠ status_t.B_OK then
      ⟨Outcome.returned created.1, none, [result.2], asserted⟩
    else
      -- *_inode = inode; return B_OK;
      ⟨Outcome.returned status_t.B_OK, some created.2, [result.2], asserted⟩

/-- The stable-id map knows no identity for any id. -/
def envInodeNotFound : InodeEnv where
  GetFileInfo := fun _ => (status_t.B_ENTRY_NOT_FOUND, infoOld)
  CreateInode := fun _ => (status_t.B_OK, 77)

/-! ## Directives, final segments and further collaborator behaviours -/

/-- The directives that a `ParsePath` call whose `strdup` succeeds appends for the path
`P`. -/
def ParsePath.directives (P : List Char) : List Op :=
  match ParsePath true [] 0 P with
  | some r => r.2.1
  | none => []

/-- The directives that path resolution contributes for a path that may be absent: none for
NULL, for which `ParsePath` is not to be called. -/
def pathDirectives : Option (List Char) → List Op
  | none => []
  | some P => ParsePath.directives P

/-- The text of a path after its last `/`, or the whole path if it has none. -/
def finalSegment (path : List Char) : List Char :=
  match strrchr path '/' with
  | some k => path.drop (k + 1)
  | none => path

/-- Three attribute values: supported attributes, handle-expiry type and filesystem id; the
locations attribute is not returned. -/
def threeAttrs : List AttrValue :=
  [⟨0, 255, none, none⟩, ⟨2, 0, none, none⟩, ⟨8, 0, some ⟨1, 2⟩, none⟩]

/-- As `envMountOk`, but the server returns no locations attribute. -/
def envMountNoLocations : MountEnv :=
  { envMountOk with GetAttr := (status_t.B_OK, threeAttrs) }

/-- As `envMountOk`, but the attribute reply carries two values only. -/
def envMountTwoAttrs : MountEnv :=
  { envMountOk with
    GetAttr := (status_t.B_OK, [⟨0, 255, none, none⟩, ⟨2, 0, none, none⟩]) }

/-- As `envMountOk`, but the locations attribute publishes the root path `export`. -/
def envMountRelRoot : MountEnv :=
  { envMountOk with
    GetAttr := (status_t.B_OK,
      [⟨0, 255, none, none⟩, ⟨2, 0, none, none⟩, ⟨8, 0, some ⟨1, 2⟩, none⟩,
        ⟨24, 0, none, some ⟨"export", []⟩⟩]) }

/-- The `IncUsage` and `DecUsage` entries of a call sequence. -/
def Call.isUsage : Call → Bool
  | Call.IncUsage _ => true
  | Call.DecUsage _ => true
  | _ => false

/-! # Properties -/

/-! ## Path resolution: the loop against the specification -/

theorem strchr_eq_none {s : List Char} {c : Char} (h : strchr s c = none) : c ∉ s := by
  induction s with
  | nil => simp
  | cons x xs ih =>
    unfold strchr at h
    split at h
    · simp at h
    · rename_i hx
      simp only [Option.map_eq_none'] at h
      simp only [List.mem_cons, not_or]
      exact ⟨fun e => hx e.symm, ih h⟩

theorem strchr_eq_some {s : List Char} {c : Char} {k : Nat} (h : strchr s c = some k) :
    s = s.take k ++ c :: s.drop (k + 1) ∧ c ∉ s.take k ∧ k < s.length := by
  induction s generalizing k with
  | nil => simp [strchr] at h
  | cons x xs ih =>
    unfold strchr at h
    split at h
    · rename_i hx
      simp only [Option.some.injEq] at h
      subst h
      simp [hx]
    · rename_i hx
      simp only [Option.map_eq_some'] at h
      obtain ⟨j, hj, rfl⟩ := h
      obtain ⟨h1, h2, h3⟩ := ih hj
      refine ⟨?_, ?_, ?_⟩
      · simp only [List.take_succ_cons, List.drop_succ_cons, List.cons_append]
        rw [← h1]
      · simp only [List.take_succ_cons, List.mem_cons, not_or]
        exact ⟨fun e => hx e.symm, h2⟩
      · simp only [List.length_cons]
        omega

theorem splitOn_of_strchr_none {s : List Char} (h : strchr s '/' = none) :
    s.splitOn '/' = [s] := by
  unfold List.splitOn
  apply List.splitOnP_eq_single
  intro x hx hx2
  have := strchr_eq_none h
  simp only [beq_iff_eq] at hx2
  subst hx2
  exact this hx

theorem splitOn_of_strchr_some {s : List Char} {k : Nat} (h : strchr s '/' = some k) :
    s.splitOn '/' = s.take k :: (s.drop (k + 1)).splitOn '/' := by
  obtain ⟨h1, h2, _⟩ := strchr_eq_some h
  unfold List.splitOn
  conv_lhs => rw [h1]
  apply List.splitOnP_first
  · intro x hx hx2
    simp only [beq_iff_eq] at hx2
    subst hx2
    exact h2 hx
  · simp

theorem segment_spec (seg : List Char) (req : RequestBuilder) (c : Nat) :
    ParsePath.segment seg (req, c)
      = (req ++ (([seg].filter fun s => decide (s ≠ ['.'])).map directiveOf),
         bump ([seg].filter fun s => decide (s ≠ ['.'])).length c) := by
  unfold ParsePath.segment
  by_cases h1 : seg = ['.', '.']
  · subst h1
    simp [directiveOf, bump]
  · by_cases h2 : seg = ['.']
    · subst h2
      simp [bump]
    · simp [h1, h2, directiveOf, bump]

theorem segment_spec_ne_nil (seg : List Char) (h : seg ≠ []) (req : RequestBuilder) (c : Nat) :
    ParsePath.segment seg (req, c)
      = (req ++ (([seg].filter isNamedSegment).map directiveOf),
         bump ([seg].filter isNamedSegment).length c) := by
  rw [segment_spec]
  have : isNamedSegment seg = decide (seg ≠ ['.']) := by simp [isNamedSegment, h]
  simp [List.filter, this]

theorem bump_add (m n c : Nat) : bump n (bump m c) = bump (m + n) c := by
  induction m generalizing c with
  | zero => simp [bump]
  | succ m ih =>
    have : m + 1 + n = (m + n) + 1 := by omega
    rw [this]
    simp only [bump]
    exact ih _

/-- The loop, started on a non-empty string with enough fuel, terminates having appended
the specified directives and having incremented the counter once per directive. -/
theorem loop_spec (fuel : Nat) : ∀ (p : List Char) (req : RequestBuilder) (c : Nat),
    p ≠ [] → p.length < fuel →
    ParsePath.loop fuel p (req, c)
      = some (req ++ specDirectives p, bump (namedSegments p) c) := by
  induction fuel with
  | zero => intro p req c _ h; omega
  | succ fuel ih =>
    intro p req c hp hlen
    unfold ParsePath.loop
    cases hs : strchr p '/' with
    | none =>
      simp only
      rw [segment_spec_ne_nil p hp]
      simp [specDirectives, namedSegments, splitOn_of_strchr_none hs]
    | some k =>
      obtain ⟨h1, _, hk⟩ := strchr_eq_some hs
      have hsplit := splitOn_of_strchr_some hs
      have hst1 : (if k ≠ 0 then ParsePath.segment (p.take k) (req, c) else (req, c))
          = (req ++ (([p.take k].filter isNamedSegment).map directiveOf),
             bump ([p.take k].filter isNamedSegment).length c) := by
        by_cases hk0 : k = 0
        · subst hk0
          simp [isNamedSegment, bump]
        · have hne : p.take k ≠ [] := by
            intro h
            have := congrArg List.length h
            simp only [List.length_take, List.length_nil] at this
            omega
          simp only [ne_eq, hk0, not_false_eq_true, if_true]
          exact segment_spec_ne_nil _ hne req c
      simp only [hst1]
      by_cases hrest : p.drop (k + 1) = []
      · simp only [hrest, ne_eq, not_true_eq_false, if_false]
        simp only [specDirectives, namedSegments, hsplit, hrest, List.splitOn_nil]
        simp [List.filter_cons, isNamedSegment]
      · simp only [ne_eq, hrest, not_false_eq_true, if_true]
        have hlen2 : (p.drop (k + 1)).length < fuel := by
          simp only [List.length_drop]
          omega
        rw [ih _ _ _ hrest hlen2]
        simp only [specDirectives, namedSegments, hsplit, bump_add]
        by_cases hn : isNamedSegment (p.take k) = true
        · simp [List.filter_cons, hn, Nat.add_comm]
        · simp [List.filter_cons, hn]

/-- The counter after a successful `ParsePath` on a non-empty path. -/
theorem ParsePath_ok (req : RequestBuilder) (count : Nat) (P : List Char) (hP : P ≠ []) :
    ParsePath true req count P
      = some (status_t.B_OK, req ++ specDirectives P, bump (namedSegments P) count) := by
  unfold ParsePath
  simp [loop_spec (P.length + 1) P req count hP (Nat.lt_succ_self _)]

/-- C1: for every non-empty path `P`, a `ParsePath` call whose `strdup` succeeds terminates
with `B_OK` and has appended to the request builder exactly the directives obtained by
splitting `P` on `/`, dropping the empty and the `.` segments, and mapping `..` to
`LookUpUp` and every other segment to `LookUp(segment)`, in order; for `a/b/../c` these
are `LookUp(a), LookUp(b), LookUpUp, LookUp(c)`. -/
theorem ParsePath_emits_specified_directives (req : RequestBuilder) (count : Nat)
    (P : List Char) (hP : P ≠ []) :
    (∃ count', ParsePath true req count P
        = some (status_t.B_OK, req ++ specDirectives P, count'))
    ∧ specDirectives P
        = ((P.splitOn '/').filter fun seg => decide (seg ≠ []) && decide (seg ≠ ['.'])).map
            (fun seg => if seg = ['.', '.'] then Op.LookUpUp else Op.LookUp seg)
    ∧ specDirectives "a/b/../c".toList
        = [Op.LookUp ['a'], Op.LookUp ['b'], Op.LookUpUp, Op.LookUp ['c']] := by
  refine ⟨⟨_, ParsePath_ok req count P hP⟩, rfl, by decide⟩

/-- Witness of C1 at the path `a/b/../c`, starting from an empty compound. -/
theorem ParsePath_emits_specified_directives_witness :
    "a/b/../c".toList ≠ []
    ∧ (∃ count', ParsePath true [] 0 "a/b/../c".toList
        = some (status_t.B_OK, [] ++ specDirectives "a/b/../c".toList, count')) :=
  ⟨by decide, (ParsePath_emits_specified_directives [] 0 "a/b/../c".toList (by decide)).1⟩

/-- C2 (evaluation at the failing input): on the empty path the loop runs once with
`pathEnd == NULL`, so the test `pathEnd != pathStart` passes and `LookUp("")` is issued:
one directive is emitted and the count goes from 0 to 1, although the path has no
non-empty segment. On `/` and on `.` nothing is emitted. -/
theorem ParsePath_empty_path_emits_lookup :
    ParsePath true [] 0 [] = some (status_t.B_OK, [Op.LookUp []], 1)
    ∧ namedSegments [] = 0
    ∧ ParsePath true [] 0 ['/'] = some (status_t.B_OK, [], 0)
    ∧ ParsePath true [] 0 ['.'] = some (status_t.B_OK, [], 0) := by
  decide

/-! ## Migration: the candidate loops -/

theorem filter_isRegistration_of_isAcquire {acq : List Call}
    (h : ∀ c ∈ acq, c.isAcquire = true) : acq.filter Call.isRegistration = [] := by
  rw [List.filter_eq_nil_iff]
  intro c hc
  have := h c hc
  cases c <;> simp_all [Call.isAcquire, Call.isRegistration]

theorem filter_isRelease_of_isAcquire {acq : List Call}
    (h : ∀ c ∈ acq, c.isAcquire = true) : acq.filter Call.isRelease = [] := by
  rw [List.filter_eq_nil_iff]
  intro c hc
  have := h c hc
  cases c <;> simp_all [Call.isAcquire, Call.isRelease]

/-- A `return` inside the loops always carries `B_NO_MEMORY`. -/
theorem inner_status (env : Collaborators) (server i : Nat) (root : String) :
    ∀ (rest : List String) (j : Nat) (st : FileSystem × List Call) (status : status_t),
      (Migrate.inner env server i root j rest st).1 = some status →
      status = status_t.B_NO_MEMORY := by
  intro rest
  induction rest with
  | nil => intro j st status h; simp [Migrate.inner] at h
  | cons a rest ih =>
    intro j st status h
    obtain ⟨fs, calls⟩ := st
    simp only [Migrate.inner] at h
    split at h
    · split at h
      · simp at h
      · simp only [Option.some.injEq] at h
        exact h.symm
    · exact ih _ _ _ h

theorem outer_status (env : Collaborators) (server : Nat) :
    ∀ (locs : List FSLocation) (i : Nat) (st : FileSystem × List Call) (status : status_t),
      (Migrate.outer env server i locs st).1 = some status →
      status = status_t.B_NO_MEMORY := by
  intro locs
  induction locs with
  | nil => intro i st status h; simp [Migrate.outer] at h
  | cons loc locs ih =>
    intro i st status h
    simp only [Migrate.outer] at h
    split at h
    · rename_i status1 st1 heq
      simp only [Option.some.injEq] at h
      subst h
      exact inner_status env server i loc.fRootPath loc.fLocations 0 st status1 (by rw [heq])
    · exact ih _ _ _ h

/-- When every `Acquire` of the inner loop fails and leaves `fServer` alone, the loop runs
to its end, changes nothing in the session and only logs the failed attempts. -/
theorem inner_all_fail (env : Collaborators) (server i : Nat) (root : String) :
    ∀ (rest : List String) (j : Nat) (fs : FileSystem) (calls : List Call),
      (∀ j' a cur, rest[j']? = some a →
        (env.Acquire i (j + j') a cur).1 ≠ status_t.B_OK
          ∧ (env.Acquire i (j + j') a cur).2 = cur) →
      ∃ acq, (∀ c ∈ acq, c.isAcquire = true)
        ∧ Migrate.inner env server i root j rest (fs, calls) = (none, fs, calls ++ acq) := by
  intro rest
  induction rest with
  | nil =>
    intro j fs calls _
    exact ⟨[], by simp, by simp [Migrate.inner]⟩
  | cons a rest ih =>
    intro j fs calls h
    have h0 := h 0 a fs.fServer (by simp)
    simp only [Nat.add_zero] at h0
    have hrest : ∀ j' a' cur, rest[j']? = some a' →
        (env.Acquire i (j + 1 + j') a' cur).1 ≠ status_t.B_OK
          ∧ (env.Acquire i (j + 1 + j') a' cur).2 = cur := by
      intro j' a' cur hj
      have := h (j' + 1) a' cur (by simpa using hj)
      have e : j + (j' + 1) = j + 1 + j' := by omega
      rw [e] at this
      exact this
    obtain ⟨acq, hacq, hrun⟩ := ih (j + 1) fs
      (calls ++ [Call.Acquire a false fs.fServer]) hrest
    refine ⟨Call.Acquire a false fs.fServer :: acq, ?_, ?_⟩
    · intro c hc
      rcases List.mem_cons.mp hc with rfl | hc
      · rfl
      · exact hacq c hc
    · simp only [Migrate.inner, h0.1, h0.2, if_false, decide_False]
      have hfs : ({ fs with fServer := fs.fServer } : FileSystem) = fs := rfl
      rw [hfs, hrun]
      simp

theorem outer_all_fail (env : Collaborators) (server : Nat) :
    ∀ (locs : List FSLocation) (i : Nat) (fs : FileSystem) (calls : List Call),
      (∀ i' loc j a cur, locs[i']? = some loc → loc.fLocations[j]? = some a →
        (env.Acquire (i + i') j a cur).1 ≠ status_t.B_OK
          ∧ (env.Acquire (i + i') j a cur).2 = cur) →
      ∃ acq, (∀ c ∈ acq, c.isAcquire = true)
        ∧ Migrate.outer env server i locs (fs, calls) = (none, fs, calls ++ acq) := by
  intro locs
  induction locs with
  | nil =>
    intro i fs calls _
    exact ⟨[], by simp, by simp [Migrate.outer]⟩
  | cons loc locs ih =>
    intro i fs calls h
    obtain ⟨acq1, hacq1, hrun1⟩ := inner_all_fail env server i loc.fRootPath loc.fLocations 0
      fs calls (by
        intro j' a cur hj
        have := h 0 loc j' a cur (by simp) hj
        simpa using this)
    obtain ⟨acq2, hacq2, hrun2⟩ := ih (i + 1) fs (calls ++ acq1) (by
      intro i' loc' j a cur hi hj
      have := h (i' + 1) loc' j a cur (by simpa using hi) hj
      have e : i + (i' + 1) = i + 1 + i' := by omega
      rw [e] at this
      exact this)
    refine ⟨acq1 ++ acq2, ?_, ?_⟩
    · intro c hc
      rcases List.mem_append.mp hc with hc | hc
      · exact hacq1 c hc
      · exact hacq2 c hc
    · simp only [Migrate.outer, hrun1, hrun2, List.append_assoc]

/-- With a pool whose failed `Acquire` leaves `fServer` alone and whose successful `Acquire`
never hands back `server`, and with `strdup` succeeding, the inner loop never returns from
`Migrate`, only logs `Acquire` calls, and leaves `fServer` different from `server` as soon
as it was different before or one of the remaining addresses is reachable. -/
theorem inner_good (env : Collaborators) (server i : Nat) (root : String)
    (hdup : env.strdup i = true)
    (hkeep : ∀ j a cur, (env.Acquire i j a cur).1 ≠ status_t.B_OK →
      (env.Acquire i j a cur).2 = cur)
    (hnew : ∀ j a cur, (env.Acquire i j a cur).1 = status_t.B_OK →
      (env.Acquire i j a cur).2 ≠ server) :
    ∀ (rest : List String) (j : Nat) (fs : FileSystem) (calls : List Call),
      ∃ fs' acq, (∀ c ∈ acq, c.isAcquire = true)
        ∧ Migrate.inner env server i root j rest (fs, calls) = (none, fs', calls ++ acq)
        ∧ (fs.fServer ≠ server → fs'.fServer ≠ server)
        ∧ ((∃ j' a, rest[j']? = some a
              ∧ ∀ cur, (env.Acquire i (j + j') a cur).1 = status_t.B_OK) →
            fs'.fServer ≠ server) := by
  intro rest
  induction rest with
  | nil =>
    intro j fs calls
    refine ⟨fs, [], by simp, by simp [Migrate.inner], fun h => h, ?_⟩
    rintro ⟨j', a, h, _⟩
    simp at h
  | cons a rest ih =>
    intro j fs calls
    by_cases hok : (env.Acquire i j a fs.fServer).1 = status_t.B_OK
    · refine ⟨{ fs with fServer := (env.Acquire i j a fs.fServer).2, fPath := some root },
        [Call.Acquire a true (env.Acquire i j a fs.fServer).2], ?_, ?_, ?_, ?_⟩
      · intro c hc
        simp only [List.mem_singleton] at hc
        subst hc
        rfl
      · simp [Migrate.inner, hok, hdup]
      · intro _
        exact hnew j a fs.fServer hok
      · intro _
        exact hnew j a fs.fServer hok
    · have hk := hkeep j a fs.fServer hok
      obtain ⟨fs', acq, hacq, hrun, hpres, hreach⟩ := ih (j + 1) fs
        (calls ++ [Call.Acquire a false fs.fServer])
      refine ⟨fs', Call.Acquire a false fs.fServer :: acq, ?_, ?_, hpres, ?_⟩
      · intro c hc
        rcases List.mem_cons.mp hc with rfl | hc
        · rfl
        · exact hacq c hc
      · simp only [Migrate.inner, hok, hk, if_false, decide_False]
        have hfs : ({ fs with fServer := fs.fServer } : FileSystem) = fs := rfl
        rw [hfs, hrun]
        simp
      · rintro ⟨j', a', hj, hall⟩
        cases j' with
        | zero =>
          simp only [List.getElem?_cons_zero, Option.some.injEq] at hj
          subst hj
          exact absurd (hall fs.fServer) hok
        | succ j' =>
          apply hreach
          refine ⟨j', a', by simpa using hj, ?_⟩
          intro cur
          have := hall cur
          have e : j + (j' + 1) = j + 1 + j' := by omega
          rw [e] at this
          exact this

theorem outer_good (env : Collaborators) (server : Nat)
    (hdup : ∀ i, env.strdup i = true)
    (hkeep : ∀ i j a cur, (env.Acquire i j a cur).1 ≠ status_t.B_OK →
      (env.Acquire i j a cur).2 = cur)
    (hnew : ∀ i j a cur, (env.Acquire i j a cur).1 = status_t.B_OK →
      (env.Acquire i j a cur).2 ≠ server) :
    ∀ (locs : List FSLocation) (i : Nat) (fs : FileSystem) (calls : List Call),
      ∃ fs' acq, (∀ c ∈ acq, c.isAcquire = true)
        ∧ Migrate.outer env server i locs (fs, calls) = (none, fs', calls ++ acq)
        ∧ (fs.fServer ≠ server → fs'.fServer ≠ server)
        ∧ ((∃ i' loc j a, locs[i']? = some loc ∧ loc.fLocations[j]? = some a
              ∧ ∀ cur, (env.Acquire (i + i') j a cur).1 = status_t.B_OK) →
            fs'.fServer ≠ server) := by
  intro locs
  induction locs with
  | nil =>
    intro i fs calls
    refine ⟨fs, [], by simp, by simp [Migrate.outer], fun h => h, ?_⟩
    rintro ⟨i', loc, j, a, h, _⟩
    simp at h
  | cons loc locs ih =>
    intro i fs calls
    obtain ⟨fs1, acq1, hacq1, hrun1, hpres1, hreach1⟩ :=
      inner_good env server i loc.fRootPath (hdup i) (hkeep i) (hnew i) loc.fLocations 0 fs calls
    obtain ⟨fs2, acq2, hacq2, hrun2, hpres2, hreach2⟩ := ih (i + 1) fs1 (calls ++ acq1)
    refine ⟨fs2, acq1 ++ acq2, ?_, ?_, fun h => hpres2 (hpres1 h), ?_⟩
    · intro c hc
      rcases List.mem_append.mp hc with hc | hc
      · exact hacq1 c hc
      · exact hacq2 c hc
    · simp only [Migrate.outer, hrun1, hrun2, List.append_assoc]
    · rintro ⟨i', loc', j, a, hi, hj, hall⟩
      cases i' with
      | zero =>
        simp only [List.getElem?_cons_zero, Option.some.injEq] at hi
        subst hi
        apply hpres2
        apply hreach1
        exact ⟨j, a, hj, by simpa using hall⟩
      | succ i' =>
        apply hreach2
        refine ⟨i', loc', j, a, by simpa using hi, hj, ?_⟩
        intro cur
        have := hall cur
        have e : i + (i' + 1) = i + 1 + i' := by omega
        rw [e] at this
        exact this

/-! ## Migration: properties of `Migrate` -/

/-- C3 (evaluation at the failing input): with one reachable replica whose root path cannot
be duplicated, `Migrate` returns `B_NO_MEMORY` with the original server restored, but the
stored root-relative path, `/old` before the call, is NULL afterwards (it was freed before
the `strdup` whose failure triggers the rollback). Likewise, when the pool answers the
candidate with the current server itself, `Migrate` returns `B_ERROR` after having replaced
the stored path by the candidate's root path `/a`. -/
theorem Migrate_failure_changes_path :
    sessionAt1.fPath = some "/old"
    ∧ (Migrate envNoMemory sessionAt1.fServer sessionAt1).1 = status_t.B_NO_MEMORY
    ∧ (Migrate envNoMemory sessionAt1.fServer sessionAt1).2.1.fServer = sessionAt1.fServer
    ∧ (Migrate envNoMemory sessionAt1.fServer sessionAt1).2.1.fPath = none
    ∧ (Migrate envSameServer sessionAt1.fServer sessionAt1).1 = status_t.B_ERROR
    ∧ (Migrate envSameServer sessionAt1.fServer sessionAt1).2.1.fServer = sessionAt1.fServer
    ∧ (Migrate envSameServer sessionAt1.fServer sessionAt1).2.1.fPath = some "/a" := by
  decide

/-- C4 (evaluation at the failing input): with two locations that are both reachable, the
`break` leaves only the inner loop; `Acquire` is called again for the second location after
the first success, and the session ends on the second location's server (3) and root path
(`/b`), not on the first one's (server 2, `/a`). -/
theorem Migrate_continues_after_first_success :
    envBothReachable.Acquire 0 0 "h1" sessionAt1.fServer = (status_t.B_OK, 2)
    ∧ Migrate envBothReachable sessionAt1.fServer sessionAt1
      = (status_t.B_OK, { sessionAt1 with fServer := 3, fPath := some "/b" },
          [Call.ProbeMigration, Call.GetLocations, Call.Acquire "h1" true 2,
            Call.Acquire "h2" true 3, Call.RemoveFileSystem 1, Call.AddFileSystem 3,
            Call.Release 1]) := by
  decide

/-- C5 (counterexample): the server argument is the current server, the probe answers true,
the locations fetch succeeds and the only candidate is reachable, yet `Migrate` returns
`B_NO_MEMORY` because duplicating the root path fails; and when the pool hands back the
current server itself, `Migrate` returns `B_ERROR`. -/
theorem Migrate_reachable_without_success :
    envNoMemory.ProbeMigration = true
    ∧ envNoMemory.GetLocations = (status_t.B_OK, oneReplica)
    ∧ (envNoMemory.Acquire 0 0 "h1" sessionAt1.fServer).1 = status_t.B_OK
    ∧ (Migrate envNoMemory sessionAt1.fServer sessionAt1).1 = status_t.B_NO_MEMORY
    ∧ (envSameServer.Acquire 0 0 "h1" sessionAt1.fServer).1 = status_t.B_OK
    ∧ (Migrate envSameServer sessionAt1.fServer sessionAt1).1 = status_t.B_ERROR := by
  decide

/-- C5 (amended): for every `Migrate` call on the session's current server whose probe hook
answers true and whose locations fetch succeeds, if every root-path duplication succeeds,
a failed `Acquire` leaves `fServer` untouched, a successful `Acquire` never hands back the
current server, and at least one candidate is reachable, then `Migrate` returns `B_OK`, the
session ends on another server, the registration calls are exactly one `RemoveFileSystem`
on the old server followed by one `AddFileSystem` on the new one, and the only `Release` is
the one of the old server. -/
theorem Migrate_success (env : Collaborators) (fs : FileSystem)
    (hprobe : env.ProbeMigration = true)
    (hfetch : env.GetLocations.1 = status_t.B_OK)
    (hdup : ∀ i, env.strdup i = true)
    (hkeep : ∀ i j a cur, (env.Acquire i j a cur).1 ≠ status_t.B_OK →
      (env.Acquire i j a cur).2 = cur)
    (hnew : ∀ i j a cur, (env.Acquire i j a cur).1 = status_t.B_OK →
      (env.Acquire i j a cur).2 ≠ fs.fServer)
    (hreach : ∃ i loc j a, env.GetLocations.2.fLocations[i]? = some loc
      ∧ loc.fLocations[j]? = some a
      ∧ ∀ cur, (env.Acquire i j a cur).1 = status_t.B_OK) :
    (Migrate env fs.fServer fs).1 = status_t.B_OK
    ∧ (Migrate env fs.fServer fs).2.1.fServer ≠ fs.fServer
    ∧ (Migrate env fs.fServer fs).2.2.filter Call.isRegistration
        = [Call.RemoveFileSystem fs.fServer,
            Call.AddFileSystem (Migrate env fs.fServer fs).2.1.fServer]
    ∧ (Migrate env fs.fServer fs).2.2.filter Call.isRelease = [Call.Release fs.fServer] := by
  obtain ⟨fs', acq, hacq, hrun, _, hne⟩ := outer_good env fs.fServer hdup hkeep hnew
    env.GetLocations.2.fLocations 0 fs [Call.ProbeMigration, Call.GetLocations]
  have hne' : fs'.fServer ≠ fs.fServer := by
    apply hne
    obtain ⟨i, loc, j, a, h1, h2, h3⟩ := hreach
    exact ⟨i, loc, j, a, h1, h2, by simpa using h3⟩
  have hne'' : ¬ fs.fServer = fs'.fServer := fun e => hne' e.symm
  have hreg := filter_isRegistration_of_isAcquire hacq
  have hrel := filter_isRelease_of_isAcquire hacq
  simp only [Migrate, hprobe, hfetch, hrun, hne'', ne_eq, not_true_eq_false, if_false,
    Bool.not_true, Bool.false_eq_true]
  refine ⟨trivial, hne', ?_, ?_⟩
  · simp [List.filter_append, hreg, List.filter_cons, Call.isRegistration]
  · simp [List.filter_append, hrel, List.filter_cons, Call.isRelease]

/-- Witness of C5 (amended): both replicas reachable, on servers other than the current
one. -/
theorem Migrate_success_witness :
    envBothReachable.ProbeMigration = true
    ∧ envBothReachable.GetLocations.1 = status_t.B_OK
    ∧ (Migrate envBothReachable sessionAt1.fServer sessionAt1).1 = status_t.B_OK
    ∧ (Migrate envBothReachable sessionAt1.fServer sessionAt1).2.2.filter Call.isRelease
        = [Call.Release sessionAt1.fServer] :=
  have h := Migrate_success envBothReachable sessionAt1 rfl rfl (fun _ => rfl)
    (fun _ _ _ _ hf => absurd rfl hf)
    (fun i _ _ _ _ => by
      show i + 2 ≠ 1
      omega)
    ⟨0, ⟨"/a", ["h1"]⟩, 0, "h1", rfl, rfl, fun _ => rfl⟩
  ⟨rfl, rfl, h.1, h.2.2.2⟩

/-- C6: for every session and every `Migrate` call on its current server that reaches the
candidates (probe answers true, locations fetch succeeds), if every `Acquire` on a
candidate fails and leaves its output untouched, then `Migrate` returns `B_ERROR`, the
session (server reference, root-relative path and every other field) is as before the
call, and no `RemoveFileSystem` or `AddFileSystem` call is issued. -/
theorem Migrate_unreachable_rollback (env : Collaborators) (fs : FileSystem)
    (hprobe : env.ProbeMigration = true)
    (hfetch : env.GetLocations.1 = status_t.B_OK)
    (hfail : ∀ i loc j a cur, env.GetLocations.2.fLocations[i]? = some loc →
      loc.fLocations[j]? = some a →
      (env.Acquire i j a cur).1 ≠ status_t.B_OK ∧ (env.Acquire i j a cur).2 = cur) :
    (Migrate env fs.fServer fs).1 = status_t.B_ERROR
    ∧ (Migrate env fs.fServer fs).2.1 = fs
    ∧ (Migrate env fs.fServer fs).2.2.filter Call.isRegistration = [] := by
  obtain ⟨acq, hacq, hrun⟩ := outer_all_fail env fs.fServer env.GetLocations.2.fLocations 0 fs
    [Call.ProbeMigration, Call.GetLocations] (by
      intro i loc j a cur hi hj
      simpa using hfail i loc j a cur hi hj)
  have hreg := filter_isRegistration_of_isAcquire hacq
  simp only [Migrate, hprobe, hfetch, hrun, ne_eq, not_true_eq_false, if_false, if_true,
    Bool.not_true, Bool.false_eq_true]
  refine ⟨trivial, trivial, ?_⟩
  simp [List.filter_append, hreg, List.filter_cons, Call.isRegistration]

/-- Witness of C6: two replica locations, none reachable. -/
theorem Migrate_unreachable_rollback_witness :
    envUnreachable.ProbeMigration = true
    ∧ envUnreachable.GetLocations.1 = status_t.B_OK
    ∧ (Migrate envUnreachable sessionAt1.fServer sessionAt1).1 = status_t.B_ERROR
    ∧ (Migrate envUnreachable sessionAt1.fServer sessionAt1).2.1 = sessionAt1 :=
  have h := Migrate_unreachable_rollback envUnreachable sessionAt1 rfl rfl
    (fun _ _ _ _ _ _ _ => ⟨by
      show status_t.B_ERROR ≠ status_t.B_OK
      decide, rfl⟩)
  ⟨rfl, rfl, h.1, h.2.1⟩

/-- C7 (evaluation at the failing input): with two candidates that both fail, no `Acquire`
succeeds, yet `Migrate` calls `Release` on the session's current server (line 285) before
returning `B_ERROR`; the session keeps pointing at that server, whose reference count is
one lower than before the call. -/
theorem Migrate_unreachable_releases_current_server :
    Migrate envUnreachable sessionAt1.fServer sessionAt1
      = (status_t.B_ERROR, sessionAt1,
          [Call.ProbeMigration, Call.GetLocations, Call.Acquire "h1" false 1,
            Call.Acquire "h2" false 1, Call.Release 1])
    ∧ refCountChange (Migrate envUnreachable sessionAt1.fServer sessionAt1).2.2
        sessionAt1.fServer = -1 := by
  decide

/-- C8 (evaluation at the failing input): a connection to the candidate is acquired
(server 2) and duplicating its root path fails; `Migrate` releases server 2, restores the
server reference and returns `B_NO_MEMORY`, but the stored root-relative path is NULL
instead of its pre-call value `/old`. -/
theorem Migrate_alloc_failure_loses_path :
    Migrate envNoMemory sessionAt1.fServer sessionAt1
      = (status_t.B_NO_MEMORY, { sessionAt1 with fPath := none },
          [Call.ProbeMigration, Call.GetLocations, Call.Acquire "h1" true 2, Call.Release 2])
    ∧ ({ sessionAt1 with fPath := none } : FileSystem) ≠ sessionAt1 := by
  decide

/-- A `Migrate` call that passes the probe and returns `B_OK` leaves the session on a server
other than the one it was called for. -/
theorem Migrate_ok_moves (env : Collaborators) (fs : FileSystem)
    (hprobe : env.ProbeMigration = true)
    (hok : (Migrate env fs.fServer fs).1 = status_t.B_OK) :
    (Migrate env fs.fServer fs).2.1.fServer ≠ fs.fServer := by
  by_cases hfetch : env.GetLocations.1 = status_t.B_OK
  · rcases hout : Migrate.outer env fs.fServer 0 env.GetLocations.2.fLocations
        (fs, [Call.ProbeMigration, Call.GetLocations]) with ⟨_ | status, fs1, calls⟩
    · by_cases hsame : fs.fServer = fs1.fServer
      · simp only [Migrate, hprobe, hfetch, hout, ne_eq, not_true_eq_false, if_false,
          Bool.not_true, Bool.false_eq_true] at hok
        rw [if_pos hsame] at hok
        cases hok
      · simp only [Migrate, hprobe, hfetch, hout, hsame, ne_eq, not_true_eq_false, if_false,
          Bool.not_true, Bool.false_eq_true]
        exact fun e => hsame e.symm
    · have hst := outer_status env fs.fServer env.GetLocations.2.fLocations 0
        (fs, [Call.ProbeMigration, Call.GetLocations]) status (by rw [hout])
      subst hst
      simp [Migrate, hprobe, hfetch, hout] at hok
  · simp [Migrate, hprobe, hfetch] at hok

/-- C9: for every session and every server argument different from the session's current
server, `Migrate` returns `B_OK`, issues no collaborator call at all (no probe, no locations
fetch, no `Acquire`, no `Release`, no registration change) and leaves the session, with its
server reference and root path, as it was; consequently a second `Migrate(old)`, issued
after a `Migrate(old)` that returned `B_OK` and updated the server reference, returns
`B_OK`, issues no call and changes nothing, whatever the collaborators would answer. -/
theorem Migrate_stale_caller_noop (env1 env2 : Collaborators) (old : Nat) (fs : FileSystem)
    (hok : (Migrate env1 old fs).1 = status_t.B_OK)
    (hupdated : (Migrate env1 old fs).2.1.fServer ≠ old) :
    (∀ (env : Collaborators) (serv : Nat) (fs0 : FileSystem), serv ≠ fs0.fServer →
      Migrate env serv fs0 = (status_t.B_OK, fs0, []))
    ∧ Migrate env2 old (Migrate env1 old fs).2.1
        = (status_t.B_OK, (Migrate env1 old fs).2.1, []) := by
  have _ := hok
  have hstale : ∀ (env : Collaborators) (serv : Nat) (fs0 : FileSystem), serv ≠ fs0.fServer →
      Migrate env serv fs0 = (status_t.B_OK, fs0, []) := by
    intro env serv fs0 h
    simp [Migrate, h]
  exact ⟨hstale, hstale env2 old _ (fun e => hupdated e.symm)⟩

/-- Witness of C9: the first `Migrate(1)` moves the session from server 1 to a reachable
replica and returns `B_OK`; a second `Migrate(1)` is then a no-op, even with collaborators
that would fail every step. -/
theorem Migrate_stale_caller_noop_witness :
    (Migrate envBothReachable 1 sessionAt1).1 = status_t.B_OK
    ∧ (Migrate envBothReachable 1 sessionAt1).2.1.fServer ≠ 1
    ∧ Migrate envUnreachable 1 (Migrate envBothReachable 1 sessionAt1).2.1
        = (status_t.B_OK, (Migrate envBothReachable 1 sessionAt1).2.1, []) :=
  ⟨by decide, by decide,
    (Migrate_stale_caller_noop envBothReachable envUnreachable 1 sessionAt1 (by decide)
      (by decide)).2⟩

/-! ## Delegation registry -/

/-- C10 (evaluation at the failing input): after adding two distinct delegations with the
same handle to the empty registry, the handle index holds one entry (the second
delegation) but the ordered list holds both delegations: `AddDelegation` replaces the index
entry and never unlinks the replaced delegation from the list. -/
theorem AddDelegation_same_handle_keeps_both_in_list :
    delegationA ≠ delegationB
    ∧ delegationA.fHandle = delegationB.fHandle
    ∧ (runRegistry [RegistryOp.add delegationA, RegistryOp.add delegationB]
        sessionAt1).fDelegationList = [delegationB, delegationA]
    ∧ ((runRegistry [RegistryOp.add delegationA, RegistryOp.add delegationB]
        sessionAt1).fDelegationList.filter
          fun d => decide (d.fHandle = delegationA.fHandle)).length = 2
    ∧ (runRegistry [RegistryOp.add delegationA, RegistryOp.add delegationB]
        sessionAt1).fHandleToDelegation = [(delegationB.fHandle, delegationB)] := by
  decide

theorem Find_Remove_self (m : List (FileHandle × Delegation)) (key : FileHandle) :
    AVLTreeMap.Find (AVLTreeMap.Remove m key) key = none := by
  unfold AVLTreeMap.Find AVLTreeMap.Remove
  rw [Option.map_eq_none', List.find?_eq_none]
  intro e he
  have := (List.mem_filter.mp he).2
  simpa using this

theorem Find_Remove_other (m : List (FileHandle × Delegation)) (key h : FileHandle)
    (hne : h ≠ key) :
    AVLTreeMap.Find (AVLTreeMap.Remove m key) h = AVLTreeMap.Find m h := by
  unfold AVLTreeMap.Find AVLTreeMap.Remove
  congr 1
  induction m with
  | nil => rfl
  | cons e m ih =>
    by_cases he : e.1 = key
    · have hh : ¬ e.1 = h := fun e' => hne (e'.symm.trans he)
      rw [List.filter_cons_of_neg (by simpa using he), List.find?_cons_of_neg _ (by simpa using hh)]
      exact ih
    · rw [List.filter_cons_of_pos (by simpa using he)]
      by_cases hh : e.1 = h
      · rw [List.find?_cons_of_pos _ (by simpa using hh),
          List.find?_cons_of_pos _ (by simpa using hh)]
      · rw [List.find?_cons_of_neg _ (by simpa using hh),
          List.find?_cons_of_neg _ (by simpa using hh)]
        exact ih

theorem Find_Insert_Remove (m : List (FileHandle × Delegation)) (key : FileHandle)
    (value : Delegation) :
    AVLTreeMap.Find (AVLTreeMap.Insert (AVLTreeMap.Remove m key) key value) key
      = some value := by
  have hnone : (AVLTreeMap.Remove m key).any (fun e => decide (e.1 = key)) = false := by
    rw [List.any_eq_false]
    intro e he
    have := (List.mem_filter.mp he).2
    simpa [AVLTreeMap.Remove] using this
  unfold AVLTreeMap.Insert
  rw [hnone]
  simp [AVLTreeMap.Find]

/-- C11: in every registry state, after `AddDelegation(d)` the delegation `d` is the head of
the ordered list and `GetDelegation(d.handle)` returns `d`; so after adding `d1` and then
`d2` with the same handle, `GetDelegation(handle)` returns `d2`, the most recent one. -/
theorem AddDelegation_postcondition (fs : FileSystem) (d d1 d2 : Delegation)
    (hsame : d1.fHandle = d2.fHandle) :
    (AddDelegation d fs).fDelegationList.head? = some d
    ∧ GetDelegation d.fHandle (AddDelegation d fs) = some d
    ∧ GetDelegation d1.fHandle (AddDelegation d2 (AddDelegation d1 fs)) = some d2 := by
  refine ⟨rfl, ?_, ?_⟩
  · exact Find_Insert_Remove fs.fHandleToDelegation d.fHandle d
  · rw [hsame]
    exact Find_Insert_Remove (AddDelegation d1 fs).fHandleToDelegation d2.fHandle d2

/-- Witness of C11: the two delegations for one handle, added to the empty registry. -/
theorem AddDelegation_postcondition_witness :
    delegationA.fHandle = delegationB.fHandle
    ∧ GetDelegation delegationA.fHandle
        (AddDelegation delegationB (AddDelegation delegationA sessionAt1))
      = some delegationB :=
  ⟨rfl, (AddDelegation_postcondition sessionAt1 delegationA delegationA delegationB rfl).2.2⟩

/-- C12: for every registry state (the intrusive list links each delegation at most once)
and every delegation `d` in its list, after `RemoveDelegation(d)` the delegation `d` is not
in the ordered list, `GetDelegation(d.handle)` returns NULL, every delegation of the list
with a different handle is still in the list, and `GetDelegation` answers every other
handle as before. -/
theorem RemoveDelegation_postcondition (fs : FileSystem) (d : Delegation)
    (hnodup : fs.fDelegationList.Nodup) (_ : d ∈ fs.fDelegationList) :
    d ∉ (RemoveDelegation d fs).fDelegationList
    ∧ GetDelegation d.fHandle (RemoveDelegation d fs) = none
    ∧ (∀ d' ∈ fs.fDelegationList, d'.fHandle ≠ d.fHandle →
        d' ∈ (RemoveDelegation d fs).fDelegationList)
    ∧ (∀ h, h ≠ d.fHandle →
        GetDelegation h (RemoveDelegation d fs) = GetDelegation h fs) := by
  refine ⟨?_, ?_, ?_, ?_⟩
  · exact hnodup.not_mem_erase
  · exact Find_Remove_self fs.fHandleToDelegation d.fHandle
  · intro d' hd' hne
    have hdd : d' ≠ d := fun e => hne (by rw [e])
    exact (List.mem_erase_of_ne hdd).mpr hd'
  · intro h hne
    exact Find_Remove_other fs.fHandleToDelegation d.fHandle h hne

/-- Witness of C12: the registry holding `delegationC` and `delegationA`, from which
`delegationA` is removed. -/
theorem RemoveDelegation_postcondition_witness :
    (runRegistry [RegistryOp.add delegationA, RegistryOp.add delegationC]
        sessionAt1).fDelegationList.Nodup
    ∧ delegationA ∈ (runRegistry [RegistryOp.add delegationA, RegistryOp.add delegationC]
        sessionAt1).fDelegationList
    ∧ GetDelegation delegationA.fHandle (RemoveDelegation delegationA
        (runRegistry [RegistryOp.add delegationA, RegistryOp.add delegationC] sessionAt1))
      = none :=
  ⟨by decide, by decide,
    (RemoveDelegation_postcondition
      (runRegistry [RegistryOp.add delegationA, RegistryOp.add delegationC] sessionAt1)
      delegationA (by decide) (by decide)).2.1⟩

/-! ## Open-state registry -/

theorem stepOpenFile_fServer (op : OpenOp) (st : FileSystem × List Call) :
    (stepOpenFile op st).1.fServer = st.1.fServer := by
  cases op <;> rfl

theorem usageChange_append (calls more : List Call) (server : Nat) :
    usageChange (calls ++ more) server = usageChange calls server + usageChange more server := by
  simp only [usageChange, List.count_append, Nat.cast_add]
  omega

/-- Counting along an admissible sequence, from any session: the list grows by the adds and
shrinks by the removes, and so does the usage counter of the session's server. -/
theorem runOpenFiles_count : ∀ (ops : List OpenOp) (fs : FileSystem) (calls : List Call),
    admissible ops fs = true →
    (runOpenFiles ops (fs, calls)).1.fOpenFiles.length + countRemoves ops
        = fs.fOpenFiles.length + countAdds ops
    ∧ usageChange (runOpenFiles ops (fs, calls)).2 fs.fServer
        = usageChange calls fs.fServer + (countAdds ops : Int) - (countRemoves ops : Int) := by
  intro ops
  induction ops with
  | nil =>
    intro fs calls _
    simp [runOpenFiles, countAdds, countRemoves]
  | cons op ops ih =>
    intro fs calls h
    cases op with
    | add state =>
      simp only [admissible, Bool.and_eq_true] at h
      obtain ⟨ih1, ih2⟩ := ih (AddOpenFile state fs).1 (calls ++ (AddOpenFile state fs).2) h.2
      have hs : (AddOpenFile state fs).1.fServer = fs.fServer := rfl
      rw [hs, usageChange_append] at ih2
      have hu : usageChange (AddOpenFile state fs).2 fs.fServer = 1 := by
        simp [AddOpenFile, usageChange]
      have hl : (AddOpenFile state fs).1.fOpenFiles.length = fs.fOpenFiles.length + 1 := by
        simp [AddOpenFile]
      simp only [runOpenFiles, stepOpenFile, countAdds, countRemoves]
      refine ⟨by omega, ?_⟩
      rw [ih2, hu]
      push_cast
      omega
    | remove state =>
      simp only [admissible, Bool.and_eq_true] at h
      obtain ⟨ih1, ih2⟩ := ih (RemoveOpenFile state fs).1
        (calls ++ (RemoveOpenFile state fs).2) h.2
      have hs : (RemoveOpenFile state fs).1.fServer = fs.fServer := rfl
      rw [hs, usageChange_append] at ih2
      have hu : usageChange (RemoveOpenFile state fs).2 fs.fServer = -1 := by
        simp [RemoveOpenFile, usageChange]
      have hmem : state ∈ fs.fOpenFiles := by simpa using h.1
      have hl : (RemoveOpenFile state fs).1.fOpenFiles.length + 1 = fs.fOpenFiles.length := by
        simp only [RemoveOpenFile, List.length_erase_of_mem hmem]
        have := List.length_pos_of_mem hmem
        omega
      simp only [runOpenFiles, stepOpenFile, countAdds, countRemoves]
      refine ⟨by omega, ?_⟩
      rw [ih2, hu]
      push_cast
      omega

theorem admissible_take : ∀ (ops : List OpenOp) (fs : FileSystem) (n : Nat),
    admissible ops fs = true → admissible (ops.take n) fs = true := by
  intro ops
  induction ops with
  | nil => intro fs n h; simpa using h
  | cons op ops ih =>
    intro fs n h
    cases n with
    | zero => rfl
    | succ n =>
      cases op with
      | add state =>
        simp only [admissible, Bool.and_eq_true, List.take_succ_cons] at h ⊢
        exact ⟨h.1, ih _ n h.2⟩
      | remove state =>
        simp only [admissible, Bool.and_eq_true, List.take_succ_cons] at h ⊢
        exact ⟨h.1, ih _ n h.2⟩

/-- C13: for every sequence of `AddOpenFile` and `RemoveOpenFile` calls that starts from an
empty open-state list and in which each add inserts a state not currently in the list and
each remove targets a state in the list, after every step (after the first `n` calls, for
every `n`) the length of the open-state list and the change of the server's usage counter
both equal the number of adds minus the number of removes, which is never negative. -/
theorem open_files_symmetric (ops : List OpenOp) (fs : FileSystem) (n : Nat)
    (hempty : fs.fOpenFiles = []) (hadm : admissible ops fs = true) :
    ((runOpenFiles (ops.take n) (fs, [])).1.fOpenFiles.length : Int)
        = (countAdds (ops.take n) : Int) - (countRemoves (ops.take n) : Int)
    ∧ usageChange (runOpenFiles (ops.take n) (fs, [])).2 fs.fServer
        = (countAdds (ops.take n) : Int) - (countRemoves (ops.take n) : Int)
    ∧ countRemoves (ops.take n) ≤ countAdds (ops.take n) := by
  obtain ⟨h1, h2⟩ := runOpenFiles_count (ops.take n) fs [] (admissible_take ops fs n hadm)
  rw [hempty] at h1
  simp only [List.length_nil, Nat.zero_add] at h1
  have hu : usageChange [] fs.fServer = 0 := by simp [usageChange]
  rw [hu] at h2
  refine ⟨by omega, by omega, by omega⟩

/-- Witness of C13: two opens followed by the close of the first, observed after all three
calls. -/
theorem open_files_symmetric_witness :
    sessionAt1.fOpenFiles = []
    ∧ admissible [OpenOp.add 10, OpenOp.add 11, OpenOp.remove 10] sessionAt1 = true
    ∧ usageChange (runOpenFiles ([OpenOp.add 10, OpenOp.add 11, OpenOp.remove 10].take 3)
        (sessionAt1, [])).2 sessionAt1.fServer
      = (countAdds ([OpenOp.add 10, OpenOp.add 11, OpenOp.remove 10].take 3) : Int)
        - (countRemoves ([OpenOp.add 10, OpenOp.add 11, OpenOp.remove 10].take 3) : Int) :=
  ⟨rfl, by decide,
    (open_files_symmetric [OpenOp.add 10, OpenOp.add 11, OpenOp.remove 10] sessionAt1 3 rfl
      (by decide)).2.1⟩

/-! ## FileInfo::CreateName -/

/-- C14 (counterexample): the identity is named `old` with path `dir/old`. When the second
allocation of `CreateName("dir", "new")` fails, the call returns `B_NO_MEMORY` with the name
already replaced by `new` and the path NULL; when the first one fails, the name is NULL. -/
theorem CreateName_alloc_failure_not_atomic :
    infoOld.fName = some "old".toList
    ∧ infoOld.fPath = some "dir/old".toList
    ∧ CreateName true false (some "dir".toList) "new".toList infoOld
      = (status_t.B_NO_MEMORY, { infoOld with fName := some "new".toList, fPath := none })
    ∧ CreateName false true (some "dir".toList) "new".toList infoOld
      = (status_t.B_NO_MEMORY, { infoOld with fName := none }) := by
  decide

/-- C14 (amended): for every identity, if an allocation inside `CreateName` fails, the call
returns `B_NO_MEMORY`; when the first allocation (the name) fails, the cached name is NULL
and the cached path keeps its prior value; when the second one (the path) fails, the cached
name is the new name and the cached path is NULL. -/
theorem CreateName_alloc_failure (allocName allocPath : Bool) (dirPath : Option (List Char))
    (name : List Char) (fi : FileInfo) (hfail : allocName = false ∨ allocPath = false) :
    (CreateName allocName allocPath dirPath name fi).1 = status_t.B_NO_MEMORY
    ∧ (allocName = false →
        (CreateName allocName allocPath dirPath name fi).2 = { fi with fName := none })
    ∧ (allocName = true →
        (CreateName allocName allocPath dirPath name fi).2
          = { fi with fName := some name, fPath := none }) := by
  cases allocName <;> cases allocPath <;> cases dirPath <;> simp_all [CreateName]

/-- Witness of C14 (amended): the second allocation fails. -/
theorem CreateName_alloc_failure_witness :
    (CreateName true false (some "dir".toList) "new".toList infoOld).1 = status_t.B_NO_MEMORY
    ∧ (CreateName true false (some "dir".toList) "new".toList infoOld).2
        = { infoOld with fName := some "new".toList, fPath := none } :=
  have h := CreateName_alloc_failure true false (some "dir".toList) "new".toList infoOld
    (Or.inr rfl)
  ⟨h.1, h.2.2 rfl⟩

/-- C15: for every name, every optional parent path and every previous identity, a
`CreateName(parentPath, name)` call in which no allocation fails returns `B_OK`, sets the
name to `name`, and sets the path to `parentPath ++ "/" ++ name` when the parent path is
present and to `name` when it is absent; handles and file id are not touched. -/
theorem CreateName_success (dirPath : Option (List Char)) (name : List Char) (fi : FileInfo) :
    CreateName true true dirPath name fi
      = (status_t.B_OK,
          { fi with
            fName := some name
            fPath := some (match dirPath with
              | some dir => dir ++ "/".toList ++ name
              | none => name) }) := by
  cases dirPath <;> simp [CreateName]

/-! ## FileInfo::UpdateFileHandles -/

/-- `ParsePath` always returns when its `strdup` succeeds, and then with `B_OK`. -/
theorem ParsePath_true (req : RequestBuilder) (count : Nat) (P : List Char) :
    ∃ req' count', ParsePath true req count P = some (status_t.B_OK, req', count') := by
  by_cases hP : P = []
  · subst hP
    exact ⟨(ParsePath.segment [] (req, count)).1, (ParsePath.segment [] (req, count)).2,
      by simp [ParsePath, ParsePath.loop, strchr]⟩
  · exact ⟨_, _, ParsePath_ok req count P hP⟩

theorem exchange_info_of_no_GetFH (env : UpdateEnv) (fi : FileInfo) (req : RequestBuilder)
    (n : Nat) (h : ReplyCall.GetFH ∉ (UpdateFileHandles.exchange env fi req n).reply) :
    (UpdateFileHandles.exchange env fi req n).info = fi := by
  unfold UpdateFileHandles.exchange at h ⊢
  by_cases hsend : env.Send = status_t.B_OK
  · by_cases hver : (env.fileIdSupported && decide (env.Verify ≠ status_t.B_OK)) = true
    · simp only [hsend, ne_eq, not_true_eq_false, if_false]
      rw [if_pos (by simpa using hver)]
    · exfalso
      apply h
      simp only [hsend, ne_eq, not_true_eq_false, if_false]
      rw [if_neg (by simpa using hver)]
      split <;> simp
  · simp [hsend]

/-- C16 (counterexample): the root path and the identity path are present, the request is
sent and verified, `reply.GetFH(&fHandle)` stores the handle `[42]`, and then the final
ascend and the parent-handle fetch both fail with `B_ERROR`: the call returns `B_ERROR`
and the cached handle, `[1]` before the call, is `[42]`. -/
theorem UpdateFileHandles_late_failure_changes_handle :
    infoOld.fHandle = ⟨[1]⟩
    ∧ (UpdateFileHandles envAscendFails sessionAt1 infoOld).outcome
        = Outcome.returned status_t.B_ERROR
    ∧ (UpdateFileHandles envAscendFails sessionAt1 infoOld).info.fHandle = ⟨[42]⟩
    ∧ (UpdateFileHandles envAscendFails sessionAt1 infoOld).info.fParent = infoOld.fParent := by
  decide

/-- A run either stops before the request is complete, leaving the identity alone and the
reply unread, or continues with the exchange of lines 116-143. -/
theorem UpdateFileHandles_cases (env : UpdateEnv) (fs : FileSystem) (fi : FileInfo) :
    ((UpdateFileHandles env fs fi).info = fi ∧ (UpdateFileHandles env fs fi).reply = [])
    ∨ ∃ req n, UpdateFileHandles env fs fi = UpdateFileHandles.exchange env fi req n := by
  unfold UpdateFileHandles
  cases hfs : fs.fPath with
  | none => exact Or.inl ⟨rfl, rfl⟩
  | some root =>
    simp only
    cases hp1 : ParsePath env.strdupRoot [Op.PutRootFH] 0 root.toList with
    | none => exact Or.inl ⟨rfl, rfl⟩
    | some r1 =>
      obtain ⟨result1, req1, count1⟩ := r1
      simp only
      by_cases hr1 : result1 = status_t.B_OK
      · simp only [hr1, ne_eq, not_true_eq_false, if_false]
        cases hfi : fi.fPath with
        | none => exact Or.inl ⟨rfl, rfl⟩
        | some path =>
          simp only
          cases hp2 : ParsePath env.strdupPath req1 count1 path with
          | none => exact Or.inl ⟨rfl, rfl⟩
          | some r2 =>
            obtain ⟨result2, req2, count2⟩ := r2
            simp only
            by_cases hr2 : result2 = status_t.B_OK
            · simp only [hr2, ne_eq, not_true_eq_false, if_false]
              exact Or.inr ⟨_, _, rfl⟩
            · simp only [ne_eq, hr2, not_false_eq_true, if_true]
              exact Or.inl (by simp)
      · simp only [ne_eq, hr1, not_false_eq_true, if_true]
        exact Or.inl (by simp)

/-- With both paths present and both duplications succeeding, the run reaches the exchange of
lines 116-143. -/
theorem UpdateFileHandles_reaches_exchange (env : UpdateEnv) (fs : FileSystem) (fi : FileInfo)
    (root : String) (path : List Char)
    (hroot : fs.fPath = some root) (hpath : fi.fPath = some path)
    (hd1 : env.strdupRoot = true) (hd2 : env.strdupPath = true) :
    ∃ req n, UpdateFileHandles env fs fi = UpdateFileHandles.exchange env fi req n := by
  obtain ⟨req1, count1, h1⟩ := ParsePath_true [Op.PutRootFH] 0 root.toList
  obtain ⟨req2, count2, h2⟩ := ParsePath_true req1 count1 path
  refine ⟨if env.fileIdSupported then req2 ++ [Op.Verify fi.fFileId] else req2, count2, ?_⟩
  unfold UpdateFileHandles
  simp only [hroot, hpath, hd1, hd2, h1, h2, ne_eq, not_true_eq_false, if_false]

/-- C16 (amended): for every run of `UpdateFileHandles` that ends other than by returning
`B_OK` before `reply.GetFH(&fHandle)` is reached (a failure of the request build, of the
send or of the verify), the cached handle and the cached parent handle, and the rest of the
identity, equal their values from before the call. -/
theorem UpdateFileHandles_early_failure (env : UpdateEnv) (fs : FileSystem) (fi : FileInfo)
    (_ : (UpdateFileHandles env fs fi).outcome ≠ Outcome.returned status_t.B_OK)
    (hearly : ReplyCall.GetFH ∉ (UpdateFileHandles env fs fi).reply) :
    (UpdateFileHandles env fs fi).info.fHandle = fi.fHandle
    ∧ (UpdateFileHandles env fs fi).info.fParent = fi.fParent
    ∧ (UpdateFileHandles env fs fi).info = fi := by
  have key : (UpdateFileHandles env fs fi).info = fi := by
    rcases UpdateFileHandles_cases env fs fi with h | ⟨req, n, h⟩
    · exact h.1
    · rw [h] at hearly ⊢
      exact exchange_info_of_no_GetFH env fi req n hearly
  rw [key]
  exact ⟨rfl, rfl, rfl⟩

/-- Witness of C16 (amended): the request cannot be sent. -/
theorem UpdateFileHandles_early_failure_witness :
    (UpdateFileHandles envSendFails sessionAt1 infoOld).outcome
        = Outcome.returned status_t.B_ERROR
    ∧ (UpdateFileHandles envSendFails sessionAt1 infoOld).info = infoOld :=
  ⟨by decide,
    (UpdateFileHandles_early_failure envSendFails sessionAt1 infoOld (by decide)
      (by decide)).2.2⟩

/-- C17: in every `UpdateFileHandles` run that gets its reply (both paths present, both path
duplications and the send succeed), whose optional verify passes and whose final ascend
answers `B_ENTRY_NOT_FOUND`, the call returns `B_OK` and the cached parent handle equals the
cached handle, which is the one `reply.GetFH(&fHandle)` has just stored. -/
theorem UpdateFileHandles_root_is_own_parent (env : UpdateEnv) (fs : FileSystem)
    (fi : FileInfo) (root : String) (path : List Char)
    (hroot : fs.fPath = some root) (hpath : fi.fPath = some path)
    (hd1 : env.strdupRoot = true) (hd2 : env.strdupPath = true)
    (hsend : env.Send = status_t.B_OK)
    (hverify : env.fileIdSupported = true → env.Verify = status_t.B_OK)
    (hup : env.LookUpUp = status_t.B_ENTRY_NOT_FOUND) :
    (UpdateFileHandles env fs fi).outcome = Outcome.returned status_t.B_OK
    ∧ (UpdateFileHandles env fs fi).info.fParent = (UpdateFileHandles env fs fi).info.fHandle
    ∧ (UpdateFileHandles env fs fi).info.fHandle = storeHandle env.GetFH fi.fHandle
    ∧ (∀ h, env.GetFH.2 = some h → (UpdateFileHandles env fs fi).info.fParent = h) := by
  obtain ⟨req, n, h⟩ := UpdateFileHandles_reaches_exchange env fs fi root path hroot hpath hd1 hd2
  have hver : (env.fileIdSupported && decide (env.Verify ≠ status_t.B_OK)) = false := by
    cases hs : env.fileIdSupported with
    | false => rfl
    | true => simp [hverify hs]
  rw [h]
  simp only [UpdateFileHandles.exchange, hsend, hver, hup, ne_eq, not_true_eq_false, if_false,
    if_true, Bool.false_eq_true]
  refine ⟨trivial, trivial, trivial, ?_⟩
  intro hh hsome
  simp [storeHandle, hsome]

/-- Witness of C17: the refresh of an object at the root of the export. -/
theorem UpdateFileHandles_root_is_own_parent_witness :
    envRefreshRoot.LookUpUp = status_t.B_ENTRY_NOT_FOUND
    ∧ (UpdateFileHandles envRefreshRoot sessionAt1 infoOld).outcome
        = Outcome.returned status_t.B_OK
    ∧ (UpdateFileHandles envRefreshRoot sessionAt1 infoOld).info.fParent = ⟨[42]⟩ :=
  have h := UpdateFileHandles_root_is_own_parent envRefreshRoot sessionAt1 infoOld "/old"
    "dir/old".toList rfl rfl rfl rfl rfl (fun _ => rfl) rfl
  ⟨rfl, h.1, h.2.2.2 ⟨[42]⟩ rfl⟩

/-! ## FileSystem::Mount -/

/-- The test of line 135 passes exactly for the masks that contain both bit sets. -/
theorem mask_contains_both (a r l : Nat) :
    a &&& (r ||| l) = r ||| l ↔ a &&& r = r ∧ a &&& l = l := by
  constructor
  · intro h
    have hbit : ∀ i, (a.testBit i && (r.testBit i || l.testBit i))
        = (r.testBit i || l.testBit i) := by
      intro i
      have := congrArg (fun x => Nat.testBit x i) h
      simpa only [Nat.testBit_and, Nat.testBit_or] using this
    constructor
    · apply Nat.eq_of_testBit_eq
      intro i
      have := hbit i
      rw [Nat.testBit_and]
      revert this
      cases a.testBit i <;> cases r.testBit i <;> cases l.testBit i <;> simp
    · apply Nat.eq_of_testBit_eq
      intro i
      have := hbit i
      rw [Nat.testBit_and]
      revert this
      cases a.testBit i <;> cases r.testBit i <;> cases l.testBit i <;> simp
  · rintro ⟨h1, h2⟩
    apply Nat.eq_of_testBit_eq
    intro i
    have b1 := congrArg (fun x => Nat.testBit x i) h1
    have b2 := congrArg (fun x => Nat.testBit x i) h2
    simp only [Nat.testBit_and] at b1 b2
    simp only [Nat.testBit_and, Nat.testBit_or]
    revert b1 b2
    cases a.testBit i <;> cases r.testBit i <;> cases l.testBit i <;> simp

theorem Mount_finish_reply (env : MountEnv) (serv : Nat) (fsPath : List Char) (id : Nat)
    (fh : FileHandle) (req : RequestBuilder) (reply : List ReplyCall)
    (values : List AttrValue) :
    (Mount.finish env serv fsPath id fh req reply values).reply = reply := by
  unfold Mount.finish
  split
  · split
    · rfl
    · dsimp only
      split
      · rfl
      · split <;> rfl
  · rfl

theorem Mount_finish_ok (env : MountEnv) (serv : Nat) (fsPath : List Char) (id : Nat)
    (fh : FileHandle) (req : RequestBuilder) (reply : List ReplyCall)
    (values : List AttrValue)
    (h : (Mount.finish env serv fsPath id fh req reply values).outcome
      = Outcome.returned status_t.B_OK) :
    (∃ fs, (Mount.finish env serv fsPath id fh req reply values).out = some fs
        ∧ fs.base.fServer = serv ∧ fs.fDevId = id)
    ∧ (Mount.finish env serv fsPath id fh req reply values).calls
        = [Call.AddFileSystem serv] := by
  unfold Mount.finish at h ⊢
  cases h0 : values[0]? with
  | none => simp [h0, Mount.stop, Mount.discard] at h
  | some v0 =>
    cases h1 : values[1]? with
    | none => simp [h0, h1, Mount.stop, Mount.discard] at h
    | some v1 =>
      cases h2 : values[2]? with
      | none => simp [h0, h1, h2, Mount.stop, Mount.discard] at h
      | some v2 =>
        simp only [h0, h1, h2] at h ⊢
        cases hs : Mount.sessionPath env values with
        | error f => simp [hs, Mount.stop, Mount.discard] at h
        | ok fPath =>
          simp only [hs] at h ⊢
          cases hp : v2.fPointer with
          | none => simp [hp, Mount.stop, Mount.discard] at h
          | some fsid =>
            simp only [hp] at h ⊢
            by_cases hc : env.CreateInode = status_t.B_OK
            · simp [hc]
            · simp [hc, Mount.stop, Mount.discard] at h

/-- Whenever `Mount` returns `B_OK`, either it stored a session for `serv` and `id` and
registered it with one `AddFileSystem` call, or the attribute reply succeeded with fewer
than two values and nothing was stored or registered. -/
theorem Mount_ok_cases (env : MountEnv) (serv : Nat) (fsPath : List Char) (id : Nat)
    (h : (Mount env serv fsPath id).outcome = Outcome.returned status_t.B_OK) :
    ((∃ fs, (Mount env serv fsPath id).out = some fs
          ∧ fs.base.fServer = serv ∧ fs.fDevId = id)
        ∧ (Mount env serv fsPath id).calls = [Call.AddFileSystem serv])
    ∨ (env.GetAttr.1 = status_t.B_OK ∧ env.GetAttr.2.length < 2
        ∧ (Mount env serv fsPath id).out = none ∧ (Mount env serv fsPath id).calls = []) := by
  unfold Mount at h ⊢
  by_cases hnew : env.newFileSystem = true
  · simp only [hnew, Bool.not_true, Bool.false_eq_true, if_false] at h ⊢
    cases hp : ParsePath env.strdupPath [Op.PutRootFH] 0 fsPath with
    | none => simp [hp, Mount.stop, Mount.discard] at h
    | some r =>
      obtain ⟨result, req1, n⟩ := r
      simp only [hp] at h ⊢
      by_cases hr : result = status_t.B_OK
      · simp only [hr, ne_eq, not_true_eq_false, if_false] at h ⊢
        by_cases hsend : env.Send = status_t.B_OK
        · simp only [hsend, not_true_eq_false, if_false] at h ⊢
          by_cases hacc : env.Access.1 = status_t.B_OK
          · simp only [hacc, not_true_eq_false, if_false] at h ⊢
            by_cases hmask : env.Access.2 &&& (env.ACCESS4_READ ||| env.ACCESS4_LOOKUP)
                = (env.ACCESS4_READ ||| env.ACCESS4_LOOKUP)
            · simp only [hmask, not_true_eq_false, if_false] at h ⊢
              by_cases hattr : ¬env.GetAttr.1 = status_t.B_OK ∨ env.GetAttr.2.length < 2
              · rw [if_pos hattr] at h ⊢
                simp only [Mount.discard, Outcome.returned.injEq] at h
                right
                rcases hattr with h1 | h1
                · exact absurd h h1
                · exact ⟨h, h1, rfl, rfl⟩
              · rw [if_neg hattr] at h ⊢
                left
                exact Mount_finish_ok env serv fsPath id _ _ _ _ h
            · simp [hmask, Mount.stop, Mount.discard] at h
          · simp [hacc, Mount.stop, Mount.discard] at h
        · simp [hsend, Mount.stop, Mount.discard] at h
      · simp [hr, Mount.stop, Mount.discard] at h
  · simp [hnew, Mount.stop, Mount.discard] at h

/-- C18 (evaluation at the failing input): the attribute reply succeeds but carries a single
value. The test of line 142 sees `count < 2` and returns `result`, which is `B_OK`: `Mount`
reports success although it stored no session through `_fs` and registered nothing. -/
theorem Mount_short_attr_reply_returns_ok :
    envMountShortAttr.GetAttr.1 = status_t.B_OK
    ∧ envMountShortAttr.GetAttr.2.length = 1
    ∧ (Mount envMountShortAttr 1 "/export/home".toList 7).outcome
        = Outcome.returned status_t.B_OK
    ∧ (Mount envMountShortAttr 1 "/export/home".toList 7).out = none
    ∧ (Mount envMountShortAttr 1 "/export/home".toList 7).calls = [] := by
  decide

/-- For every `Mount` call that gets as far as the access reply (the session object is
allocated, the path is parsed, the request is sent) and whose `Access` reply succeeded,
`Mount` goes on to read the attribute reply if and only if the allowed mask contains both
`ACCESS4_READ` and `ACCESS4_LOOKUP`; if either is missing it reaches the
`return B_PERMISSION_DENIED;` of line 137 with nothing stored through `_fs` and no call made
on the server's session set, and on the way out the `ObjectDeleter` destroys the object,
whose `fServer` was never assigned. -/
theorem Mount_access_gate (env : MountEnv) (serv : Nat) (fsPath : List Char) (id : Nat)
    (hnew : env.newFileSystem = true) (hdup : env.strdupPath = true)
    (hsend : env.Send = status_t.B_OK) (hacc : env.Access.1 = status_t.B_OK) :
    (ReplyCall.GetAttr ∈ (Mount env serv fsPath id).reply
        ↔ (env.Access.2 &&& env.ACCESS4_READ = env.ACCESS4_READ
            ∧ env.Access.2 &&& env.ACCESS4_LOOKUP = env.ACCESS4_LOOKUP))
    ∧ (¬ (env.Access.2 &&& env.ACCESS4_READ = env.ACCESS4_READ
            ∧ env.Access.2 &&& env.ACCESS4_LOOKUP = env.ACCESS4_LOOKUP) →
        (Mount env serv fsPath id).outcome = Outcome.returned status_t.B_PERMISSION_DENIED
        ∧ (Mount env serv fsPath id).out = none
        ∧ (Mount env serv fsPath id).calls = []
        ∧ (Mount env serv fsPath id).cleanup = Cleanup.destroyUnset
        ∧ (Mount env serv fsPath id).completion = Outcome.fault Fault.uninitialised) := by
  obtain ⟨req1, n, hp⟩ := ParsePath_true [Op.PutRootFH] 0 fsPath
  rw [← mask_contains_both]
  by_cases hboth : env.Access.2 &&& (env.ACCESS4_READ ||| env.ACCESS4_LOOKUP)
      = (env.ACCESS4_READ ||| env.ACCESS4_LOOKUP)
  · refine ⟨⟨fun _ => hboth, fun _ => ?_⟩, fun h => absurd hboth h⟩
    unfold Mount
    simp only [hnew, hdup, hp, hsend, hacc, hboth, ne_eq, not_true_eq_false, if_false,
      Bool.not_true, Bool.false_eq_true]
    split
    · simp [Mount.discard]
    · rw [Mount_finish_reply]
      simp
  · have hrun : Mount env serv fsPath id
        = Mount.discard status_t.B_PERMISSION_DENIED none
            (req1 ++ [Op.GetFH, Op.Access,
              Op.GetAttr [env.FATTR4_SUPPORTED_ATTRS, env.FATTR4_FH_EXPIRE_TYPE,
                env.FATTR4_FSID, env.FATTR4_FS_LOCATIONS]])
            (ReplyCall.PutRootFH :: List.replicate n ReplyCall.LookUp
              ++ [ReplyCall.GetFH, ReplyCall.Access]) := by
      unfold Mount
      simp only [hnew, hdup, hp, hsend, hacc, hboth, ne_eq, not_true_eq_false, if_false,
        not_false_eq_true, if_true, Bool.not_true, Bool.false_eq_true]
    rw [hrun]
    refine ⟨⟨fun h => ?_, fun h => absurd h hboth⟩, fun _ => ⟨rfl, rfl, rfl, rfl, rfl⟩⟩
    exfalso
    simp [Mount.discard, List.mem_replicate] at h

/-- C19 (evaluation at the failing input): the `Access` reply succeeds and grants read
access only. `Mount` does not go on to the attribute reply and reaches the
`return B_PERMISSION_DENIED;` of line 137 with nothing stored through `_fs`; leaving the
function there, the `ObjectDeleter` of line 98 deletes the session object, and
`~FileSystem` evaluates `fServer->PrivateData()` (line 48) on an `fServer` that the
constructor does not initialise and that `Mount` assigns only at line 168: the call ends in
a read of an unassigned pointer, not in a clean return of the status. -/
theorem Mount_access_denied_destroys_unset_session :
    envMountReadOnly.Access = (status_t.B_OK, 1)
    ∧ envMountReadOnly.ACCESS4_READ = 1 ∧ envMountReadOnly.ACCESS4_LOOKUP = 2
    ∧ ReplyCall.GetAttr ∉ (Mount envMountReadOnly 1 "/export/home".toList 7).reply
    ∧ (Mount envMountReadOnly 1 "/export/home".toList 7).outcome
        = Outcome.returned status_t.B_PERMISSION_DENIED
    ∧ (Mount envMountReadOnly 1 "/export/home".toList 7).out = none
    ∧ (Mount envMountReadOnly 1 "/export/home".toList 7).cleanup = Cleanup.destroyUnset
    ∧ (Mount envMountReadOnly 1 "/export/home".toList 7).completion
        = Outcome.fault Fault.uninitialised := by
  decide

theorem strrchr_eq_none {s : List Char} {c : Char} (h : strrchr s c = none) : c ∉ s := by
  induction s with
  | nil => simp
  | cons x xs ih =>
    unfold strrchr at h
    cases hxs : strrchr xs c with
    | some k => simp [hxs] at h
    | none =>
      simp only [hxs] at h
      by_cases hx : x = c
      · simp [hx] at h
      · simp only [List.mem_cons, not_or]
        exact ⟨fun e => hx e.symm, ih hxs⟩

theorem strrchr_eq_some {s : List Char} {c : Char} {k : Nat} (h : strrchr s c = some k) :
    s = s.take k ++ c :: s.drop (k + 1) ∧ c ∉ s.drop (k + 1) := by
  induction s generalizing k with
  | nil => simp [strrchr] at h
  | cons x xs ih =>
    unfold strrchr at h
    cases hxs : strrchr xs c with
    | some j =>
      simp only [hxs, Option.some.injEq] at h
      subst h
      obtain ⟨h1, h2⟩ := ih hxs
      refine ⟨?_, ?_⟩
      · simp only [List.take_succ_cons, List.drop_succ_cons, List.cons_append]
        rw [← h1]
      · simpa using h2
    | none =>
      simp only [hxs] at h
      by_cases hx : x = c
      · simp only [hx, if_true, Option.some.injEq] at h
        subst h
        subst hx
        exact ⟨by simp, by simpa using strrchr_eq_none hxs⟩
      · simp [hx] at h

theorem splitOn_append_cons (pre suf : List Char) (hsuf : '/' ∉ suf) :
    (pre ++ '/' :: suf).splitOn '/' = pre.splitOn '/' ++ [suf] := by
  unfold List.splitOn
  induction pre with
  | nil =>
    have hs : suf.splitOnP (· == '/') = [suf] := by
      apply List.splitOnP_eq_single
      intro x hx hx2
      simp only [beq_iff_eq] at hx2
      subst hx2
      exact hsuf hx
    simp [List.splitOnP_cons, hs]
  | cons x pre ih =>
    simp only [List.cons_append, List.splitOnP_cons, ih]
    by_cases hx : (x == '/') = true
    · simp [hx]
    · simp only [hx, Bool.false_eq_true, if_false]
      cases hsp : List.splitOnP (· == '/') pre with
      | nil => exact absurd hsp (List.splitOnP_ne_nil _ _)
      | cons hd tl => simp [List.modifyHead]

/-- For a mount path that, after the leading slash was skipped, is not empty and does not end
in a slash, the name given to the root inode is the last non-empty segment of the path. -/
theorem rootName_eq_last_segment (env : MountEnv) (p : List Char) (hp : p ≠ [])
    (hlast : p.getLast? ≠ some '/') :
    lastNonEmptySegment p = some (Mount.rootName env p) := by
  unfold lastNonEmptySegment Mount.rootName
  cases hs : strrchr p '/' with
  | none =>
    have hsplit : p.splitOn '/' = [p] := by
      unfold List.splitOn
      apply List.splitOnP_eq_single
      intro x hx hx2
      simp only [beq_iff_eq] at hx2
      subst hx2
      exact strrchr_eq_none hs hx
    simp [hsplit, hp]
  | some k =>
    obtain ⟨h1, h2⟩ := strrchr_eq_some hs
    have hsuf : p.drop (k + 1) ≠ [] := by
      intro hnil
      apply hlast
      rw [h1, hnil]
      simp
    simp only
    conv_lhs => rw [h1]
    rw [splitOn_append_cons _ _ h2, List.filter_append]
    simp [List.filter_cons, hsuf]

/-- C20 (evaluation at the failing input): for the mount path `/export/home/`, whose last
non-empty segment is `home`, a successful `Mount` names the root object with the text after
the last slash, which is empty. For `/export/home` the name is `home`, and for `/` and the
empty path it is the server's universal address. -/
theorem Mount_trailing_slash_gives_empty_name :
    lastNonEmptySegment "/export/home/".toList = some "home".toList
    ∧ (Mount envMountOk 1 "/export/home/".toList 7).outcome = Outcome.returned status_t.B_OK
    ∧ (Mount envMountOk 1 "/export/home/".toList 7).out.map (fun fs => fs.fRoot.fName)
        = some []
    ∧ (Mount envMountOk 1 "/export/home".toList 7).out.map (fun fs => fs.fRoot.fName)
        = some "home".toList
    ∧ (Mount envMountOk 1 "/".toList 7).out.map (fun fs => fs.fRoot.fName)
        = some "10.0.0.1".toList
    ∧ (Mount envMountOk 1 "".toList 7).out.map (fun fs => fs.fRoot.fName)
        = some "10.0.0.1".toList := by
  decide

/-! ## FileSystem::GetInode -/

/-- C21: for every stable id: if the lookup in the stable-id map returns a status other
than `B_OK`, `B_ENTRY_NOT_FOUND` included, `GetInode` returns exactly that status, does not
call the inode constructor and does not write its output; otherwise it calls the
constructor once, on the identity found, returns the constructor's status, and writes the
output inode if and only if that status is `B_OK`. -/
theorem GetInode_propagates (env : InodeEnv) (id : Nat) :
    ((env.GetFileInfo id).1 ≠ status_t.B_OK →
        (GetInode env id).outcome = Outcome.returned (env.GetFileInfo id).1
          ∧ (GetInode env id).created = []
          ∧ (GetInode env id).out = none)
    ∧ ((env.GetFileInfo id).1 = status_t.B_OK →
        (GetInode env id).outcome
            = Outcome.returned (env.CreateInode (env.GetFileInfo id).2).1
          ∧ (GetInode env id).created = [(env.GetFileInfo id).2]
          ∧ ((GetInode env id).out ≠ none
              ↔ (env.CreateInode (env.GetFileInfo id).2).1 = status_t.B_OK)
          ∧ ((env.CreateInode (env.GetFileInfo id).2).1 = status_t.B_OK →
              (GetInode env id).out = some (env.CreateInode (env.GetFileInfo id).2).2)) := by
  constructor
  · intro hne
    simp [GetInode, hne]
  · intro hok
    by_cases hc : (env.CreateInode (env.GetFileInfo id).2).1 = status_t.B_OK
    · simp [GetInode, hok, hc]
    · simp [GetInode, hok, hc]

/-- Witness of C21: the stable-id map answers `B_ENTRY_NOT_FOUND`; `GetInode` returns that
status, hands no identity to the inode constructor and writes no output. -/
theorem GetInode_propagates_witness :
    (envInodeNotFound.GetFileInfo 3).1 = status_t.B_ENTRY_NOT_FOUND
    ∧ (GetInode envInodeNotFound 3).outcome = Outcome.returned status_t.B_ENTRY_NOT_FOUND
    ∧ (GetInode envInodeNotFound 3).created = []
    ∧ (GetInode envInodeNotFound 3).out = none :=
  ⟨rfl, (GetInode_propagates envInodeNotFound 3).1 (by decide)⟩

/-! ## Request and reply of a refresh and of a mount -/

/-- A `ParsePath` call whose `strdup` succeeds appends its directives to the compound and
counts each of them. -/
theorem ParsePath_append (req : RequestBuilder) (count : Nat) (P : List Char) :
    ParsePath true req count P
      = some (status_t.B_OK, req ++ ParsePath.directives P,
          bump (ParsePath.directives P).length count) := by
  by_cases hP : P = []
  · subst hP
    simp [ParsePath, ParsePath.directives, ParsePath.loop, strchr, ParsePath.segment, bump]
  · have hd : ParsePath.directives P = specDirectives P := by
      simp [ParsePath.directives, ParsePath_ok [] 0 P hP]
    rw [hd, ParsePath_ok req count P hP]
    simp [specDirectives, namedSegments]

theorem directives_of_ne_nil (P : List Char) (hP : P ≠ []) :
    ParsePath.directives P = specDirectives P := by
  simp [ParsePath.directives, ParsePath_ok [] 0 P hP]

theorem exchange_request (env : UpdateEnv) (fi : FileInfo) (req : RequestBuilder) (n : Nat) :
    (UpdateFileHandles.exchange env fi req n).request
      = req ++ [Op.GetFH, Op.LookUpUp, Op.GetFH] := by
  unfold UpdateFileHandles.exchange
  split
  · rfl
  · split
    · rfl
    · dsimp only
      split <;> rfl

/-- With both paths present and both duplications succeeding, the run is the exchange of
lines 116-143 on the compound and the count that the two `ParsePath` calls produce. -/
theorem UpdateFileHandles_eq_exchange (env : UpdateEnv) (fs : FileSystem) (fi : FileInfo)
    (root : String) (path : List Char)
    (hroot : fs.fPath = some root) (hpath : fi.fPath = some path)
    (hd1 : env.strdupRoot = true) (hd2 : env.strdupPath = true) :
    UpdateFileHandles env fs fi
      = UpdateFileHandles.exchange env fi
          (([Op.PutRootFH] ++ ParsePath.directives root.toList ++ ParsePath.directives path)
            ++ (if env.fileIdSupported then [Op.Verify fi.fFileId] else []))
          (bump ((ParsePath.directives root.toList).length
            + (ParsePath.directives path).length) 0) := by
  unfold UpdateFileHandles
  simp only [hroot, hpath, hd1, hd2, ParsePath_append, bump_add, ne_eq, not_true_eq_false,
    if_false]
  cases env.fileIdSupported <;> simp

/-- C22: for every session and identity whose paths are present and whose path duplications
succeed, the compound that `UpdateFileHandles` builds is `PutRootFH`, then the directives
that `ParsePath` emits for the session's root path, then those it emits for the identity's
path, then one `Verify` of the cached file id if and only if the session supports
`FATTR4_FILEID`, then `GetFH`, `LookUpUp`, `GetFH`, in that order. -/
theorem UpdateFileHandles_request_shape (env : UpdateEnv) (fs : FileSystem) (fi : FileInfo)
    (root : String) (path : List Char)
    (hroot : fs.fPath = some root) (hpath : fi.fPath = some path)
    (hd1 : env.strdupRoot = true) (hd2 : env.strdupPath = true) :
    (UpdateFileHandles env fs fi).request
      = [Op.PutRootFH] ++ ParsePath.directives root.toList ++ ParsePath.directives path
          ++ (if env.fileIdSupported then [Op.Verify fi.fFileId] else [])
          ++ [Op.GetFH, Op.LookUpUp, Op.GetFH] := by
  rw [UpdateFileHandles_eq_exchange env fs fi root path hroot hpath hd1 hd2, exchange_request]

/-- Witness of C22: the refresh of `dir/old` in the session rooted at `/old`. -/
theorem UpdateFileHandles_request_shape_witness :
    (UpdateFileHandles envRefreshRoot sessionAt1 infoOld).request
      = [Op.PutRootFH] ++ ParsePath.directives "/old".toList
          ++ ParsePath.directives "dir/old".toList
          ++ (if envRefreshRoot.fileIdSupported then [Op.Verify infoOld.fFileId] else [])
          ++ [Op.GetFH, Op.LookUpUp, Op.GetFH] :=
  UpdateFileHandles_request_shape envRefreshRoot sessionAt1 infoOld "/old" "dir/old".toList
    rfl rfl rfl rfl

theorem GetPath_scan_self : ∀ (p : List Char) (i slash : Nat),
    (GetPath.scan p (some p) i slash).1 = i + p.length := by
  intro p
  induction p with
  | nil => intro i slash; simp [GetPath.scan]
  | cons c cs ih =>
    intro i slash
    simp only [GetPath.scan, ne_eq, not_true_eq_false, if_false, List.length_cons]
    rw [ih]
    omega

/-- `GetPath(R, R)` is NULL. -/
theorem GetPath_self (R : List Char) : GetPath (some R) R = none := by
  unfold GetPath
  simp [GetPath_scan_self]

theorem GetPath_scan_descend : ∀ (R rest : List Char) (i slash : Nat),
    GetPath.scan (R ++ '/' :: rest) (some R) i slash = (i + R.length, i + R.length) := by
  intro R
  induction R with
  | nil => intro rest i slash; simp [GetPath.scan]
  | cons c cs ih =>
    intro rest i slash
    simp only [List.cons_append, GetPath.scan, ne_eq, not_true_eq_false, if_false,
      List.length_cons]
    have h := ih rest (i + 1) (if c = '/' then i else slash)
    simp only [List.append_eq] at h ⊢
    rw [h]
    simp only [Prod.mk.injEq]
    omega

/-- `GetPath(R, R/rest)` is `/rest`. -/
theorem GetPath_descend (R rest : List Char) :
    GetPath (some R) (R ++ '/' :: rest) = some ('/' :: rest) := by
  unfold GetPath
  simp [GetPath_scan_descend]

/-- Without a root path `GetPath` returns the path whole, and NULL for the empty path. -/
theorem GetPath_no_root (P : List Char) :
    GetPath none P = if P = [] then none else some P := by
  cases P with
  | nil => simp [GetPath, GetPath.scan]
  | cons c cs =>
    unfold GetPath
    by_cases hc : c = '/' <;> simp [GetPath.scan, hc]

theorem splitOn_append_sep (A B : List Char) :
    (A ++ '/' :: B).splitOn '/' = A.splitOn '/' ++ B.splitOn '/' := by
  unfold List.splitOn
  induction A with
  | nil => simp [List.splitOnP_cons]
  | cons x A ih =>
    simp only [List.cons_append, List.splitOnP_cons, ih]
    by_cases hx : (x == '/') = true
    · simp [hx]
    · simp only [hx, Bool.false_eq_true, if_false]
      cases hsp : List.splitOnP (· == '/') A with
      | nil => exact absurd hsp (List.splitOnP_ne_nil _ _)
      | cons hd tl => simp [List.modifyHead]

theorem specDirectives_append_sep (A B : List Char) :
    specDirectives (A ++ '/' :: B) = specDirectives A ++ specDirectives B := by
  simp [specDirectives, splitOn_append_sep]

theorem specDirectives_slash (B : List Char) :
    specDirectives ('/' :: B) = specDirectives B := by
  have h := specDirectives_append_sep [] B
  have h0 : specDirectives [] = [] := by decide
  simpa [h0] using h

/-- For a root path `R` that is not empty, resolving `R` and then the `GetPath` result for
`R/rest` emits the directives of `R/rest`; and with `P = R` the `GetPath` result is absent
and nothing is added to the directives of `R`. -/
theorem directives_relative (R rest : List Char) (hR : R ≠ []) :
    pathDirectives (some R) ++ pathDirectives (GetPath (some R) (R ++ '/' :: rest))
        = pathDirectives (some (R ++ '/' :: rest))
    ∧ pathDirectives (some R) ++ pathDirectives (GetPath (some R) R)
        = pathDirectives (some R) := by
  constructor
  · rw [GetPath_descend]
    simp only [pathDirectives]
    rw [directives_of_ne_nil R hR, directives_of_ne_nil ('/' :: rest) (by simp),
      directives_of_ne_nil (R ++ '/' :: rest) (by simp), specDirectives_append_sep,
      specDirectives_slash]
  · rw [GetPath_self]
    simp [pathDirectives]

/-- C24 (evaluation at the failing input): the session root path is the empty string and
the mount path, its leading slash dropped, is `/x`, that is `R ++ "/" ++ "x"`. `GetPath`
returns `/x` as claimed, but `ParsePath` emits `LookUp("")` for the empty root path, so the
directives of the root path followed by those of the `GetPath` result are `LookUp("")`,
`LookUp(x)`, while those of the mount path are `LookUp(x)` alone. Likewise, without a root
path and with an empty mount path, `GetPath` is NULL while `ParsePath` of the mount path
emits `LookUp("")`. -/
theorem GetPath_directives_differ_for_empty_root :
    "/x".toList = [] ++ '/' :: "x".toList
    ∧ GetPath (some []) "/x".toList = some "/x".toList
    ∧ pathDirectives (some []) ++ pathDirectives (GetPath (some []) "/x".toList)
        = [Op.LookUp [], Op.LookUp ['x']]
    ∧ pathDirectives (some "/x".toList) = [Op.LookUp ['x']]
    ∧ GetPath none [] = none
    ∧ pathDirectives none ++ pathDirectives (GetPath none []) = []
    ∧ pathDirectives (some []) = [Op.LookUp []] := by
  decide

/-! ## The identity invariant -/

theorem strrchr_none_of_not_mem {s : List Char} {c : Char} (h : c ∉ s) :
    strrchr s c = none := by
  induction s with
  | nil => rfl
  | cons x xs ih =>
    simp only [List.mem_cons, not_or] at h
    have hx : ¬ x = c := fun e => h.1 e.symm
    simp [strrchr, ih h.2, hx]

theorem strrchr_append_sep (dir name : List Char) (h : '/' ∉ name) :
    strrchr (dir ++ '/' :: name) '/' = some dir.length := by
  induction dir with
  | nil => simp [strrchr, strrchr_none_of_not_mem h]
  | cons x dir ih =>
    simp only [List.cons_append, strrchr]
    have ih' : strrchr (dir.append ('/' :: name)) '/' = some dir.length := ih
    simp only [List.append_eq] at ih' ⊢
    rw [ih']
    simp

/-- C25: for every name that contains no `/`, every optional parent path and every previous
identity, after a `CreateName` that returned `B_OK` the name is `name` and the path is set
and ends with `name` as its final segment: the text of the path after its last `/`, or the
whole path if it has none, equals `name`. -/
theorem CreateName_identity_invariant (allocName allocPath : Bool)
    (dirPath : Option (List Char)) (name : List Char) (fi : FileInfo)
    (hname : '/' ∉ name)
    (hok : (CreateName allocName allocPath dirPath name fi).1 = status_t.B_OK) :
    (CreateName allocName allocPath dirPath name fi).2.fName = some name
    ∧ ∃ path, (CreateName allocName allocPath dirPath name fi).2.fPath = some path
        ∧ finalSegment path = name := by
  cases allocName
  · simp [CreateName] at hok
  · cases allocPath
    · cases dirPath <;> simp [CreateName] at hok
    · cases dirPath with
      | none =>
        refine ⟨by simp [CreateName], name, by simp [CreateName], ?_⟩
        simp [finalSegment, strrchr_none_of_not_mem hname]
      | some dir =>
        refine ⟨by simp [CreateName], dir ++ '/' :: name, by simp [CreateName], ?_⟩
        simp [finalSegment, strrchr_append_sep dir name hname]

/-- Witness of C25: the name `new` in the directory `dir`. -/
theorem CreateName_identity_invariant_witness :
    '/' ∉ "new".toList
    ∧ (CreateName true true (some "dir".toList) "new".toList infoOld).1 = status_t.B_OK
    ∧ (CreateName true true (some "dir".toList) "new".toList infoOld).2.fName
        = some "new".toList :=
  ⟨by decide, rfl,
    (CreateName_identity_invariant true true (some "dir".toList) "new".toList infoOld
      (by decide) rfl).1⟩

/-- C26 (evaluation at the failing input): the server returns no locations attribute, so the
session root path is absent, and the mount path is `/export`. `GetPath` returns `export`
whole; it contains no `/`, so `strrchr` finds nothing and the name is never set: the
identity handed to `Inode::CreateInode` has the path `export` and no name. The later
`SetName` code of the same function does handle a path without `/` and names the root
inode `export`. -/
theorem Mount_root_identity_without_name :
    (Mount envMountNoLocations 1 "/export".toList 7).outcome = Outcome.returned status_t.B_OK
    ∧ (Mount envMountNoLocations 1 "/export".toList 7).out.map (fun fs => fs.base.fPath)
        = some none
    ∧ (Mount envMountNoLocations 1 "/export".toList 7).out.map (fun fs => fs.fRoot.fInfo.fPath)
        = some (some "export".toList)
    ∧ (Mount envMountNoLocations 1 "/export".toList 7).out.map (fun fs => fs.fRoot.fInfo.fName)
        = some none
    ∧ finalSegment "export".toList = "export".toList
    ∧ (Mount envMountNoLocations 1 "/export".toList 7).out.map (fun fs => fs.fRoot.fName)
        = some "export".toList := by
  decide

/-! ## Delegation registry: list and index -/

/-- C27 (evaluation at the failing input): two distinct delegations with the same handle are
added and the first one, which is in the list, is removed. The second delegation is still
in the ordered list, but `RemoveDelegation` dropped the index entry of the shared handle:
`GetDelegation` returns NULL for the handle of a listed delegation. -/
theorem RemoveDelegation_unindexes_listed_delegation :
    delegationA ≠ delegationB
    ∧ delegationA ∈ (runRegistry [RegistryOp.add delegationA, RegistryOp.add delegationB]
        sessionAt1).fDelegationList
    ∧ delegationB ∈ (runRegistry [RegistryOp.add delegationA, RegistryOp.add delegationB,
        RegistryOp.remove delegationA] sessionAt1).fDelegationList
    ∧ GetDelegation delegationB.fHandle (runRegistry [RegistryOp.add delegationA,
        RegistryOp.add delegationB, RegistryOp.remove delegationA] sessionAt1) = none := by
  decide

/-! ## Mount: attribute indexing -/

/-- C28 (evaluation at the failing input): the attribute reply succeeds with two values. It
passes the test `count < 2` of line 142, and line 153 then reads `values[2]`, an index that
is not below the count. -/
theorem Mount_reads_past_two_attributes :
    envMountTwoAttrs.GetAttr.1 = status_t.B_OK
    ∧ envMountTwoAttrs.GetAttr.2.length = 2
    ∧ ¬ (envMountTwoAttrs.GetAttr.1 ≠ status_t.B_OK ∨ envMountTwoAttrs.GetAttr.2.length < 2)
    ∧ envMountTwoAttrs.GetAttr.2[2]? = none
    ∧ (Mount envMountTwoAttrs 1 "/export".toList 7).outcome
        = Outcome.fault Fault.outOfBounds := by
  decide

/-- With three attribute values or more, every index that `Mount` reads is below the
count. -/
theorem Mount_finish_in_bounds (env : MountEnv) (serv : Nat) (fsPath : List Char) (id : Nat)
    (fh : FileHandle) (req : RequestBuilder) (reply : List ReplyCall)
    (values : List AttrValue) (hlen : 3 ≤ values.length) :
    (Mount.finish env serv fsPath id fh req reply values).outcome
      ≠ Outcome.fault Fault.outOfBounds := by
  obtain ⟨v0, h0⟩ : ∃ v, values[0]? = some v :=
    ⟨values[0], List.getElem?_eq_getElem (by omega)⟩
  obtain ⟨v1, h1⟩ : ∃ v, values[1]? = some v :=
    ⟨values[1], List.getElem?_eq_getElem (by omega)⟩
  obtain ⟨v2, h2⟩ : ∃ v, values[2]? = some v :=
    ⟨values[2], List.getElem?_eq_getElem (by omega)⟩
  have hpath : Mount.sessionPath env values ≠ Except.error Fault.outOfBounds := by
    unfold Mount.sessionPath
    by_cases h4 : values.length = 4
    · obtain ⟨v3, h3⟩ : ∃ v, values[3]? = some v :=
        ⟨values[3], List.getElem?_eq_getElem (by omega)⟩
      simp only [h4, if_true, h3]
      split
      · split <;> simp
      · simp
    · simp [h4]
  unfold Mount.finish
  simp only [h0, h1, h2]
  cases hs : Mount.sessionPath env values with
  | error f =>
    simp only [Mount.stop, Mount.discard]
    intro h
    apply hpath
    rw [hs]
    simp only [Outcome.fault.injEq] at h
    rw [h]
  | ok fPath =>
    simp only
    cases v2.fPointer with
    | none => simp [Mount.stop, Mount.discard]
    | some fsid =>
      simp only
      split <;> simp [Mount.stop, Mount.discard]

/-! ## Usage accounting -/

theorem usageChange_append_not_usage (calls : List Call) (c : Call) (server : Nat)
    (h : c.isUsage = false) : usageChange (calls ++ [c]) server = usageChange calls server := by
  rw [usageChange_append]
  have : usageChange [c] server = 0 := by
    cases c <;> simp_all [usageChange, Call.isUsage]
  omega

theorem inner_usage (env : Collaborators) (server i : Nat) (root : String) :
    ∀ (rest : List String) (j : Nat) (fs : FileSystem) (calls : List Call) (s : Nat),
      usageChange (Migrate.inner env server i root j rest (fs, calls)).2.2 s
          = usageChange calls s
      ∧ (Migrate.inner env server i root j rest (fs, calls)).2.1.fOpenFiles
          = fs.fOpenFiles := by
  intro rest
  induction rest with
  | nil => intro j fs calls s; simp [Migrate.inner]
  | cons a rest ih =>
    intro j fs calls s
    simp only [Migrate.inner]
    split
    · split
      · refine ⟨?_, rfl⟩
        rw [usageChange_append_not_usage]
        rfl
      · refine ⟨?_, rfl⟩
        rw [usageChange_append_not_usage, usageChange_append_not_usage]
        · rfl
        · rfl
    · obtain ⟨h1, h2⟩ := ih (j + 1) { fs with fServer := (env.Acquire i j a fs.fServer).2 }
        (calls ++ [Call.Acquire a (decide ((env.Acquire i j a fs.fServer).1 = status_t.B_OK))
          (env.Acquire i j a fs.fServer).2]) s
      refine ⟨?_, h2⟩
      rw [h1, usageChange_append_not_usage]
      rfl

theorem outer_usage (env : Collaborators) (server : Nat) :
    ∀ (locs : List FSLocation) (i : Nat) (fs : FileSystem) (calls : List Call) (s : Nat),
      usageChange (Migrate.outer env server i locs (fs, calls)).2.2 s = usageChange calls s
      ∧ (Migrate.outer env server i locs (fs, calls)).2.1.fOpenFiles = fs.fOpenFiles := by
  intro locs
  induction locs with
  | nil => intro i fs calls s; simp [Migrate.outer]
  | cons loc locs ih =>
    intro i fs calls s
    obtain ⟨h1, h2⟩ := inner_usage env server i loc.fRootPath loc.fLocations 0 fs calls s
    rcases hin : Migrate.inner env server i loc.fRootPath 0 loc.fLocations (fs, calls)
      with ⟨_ | status, fs1, calls1⟩
    · rw [hin] at h1 h2
      simp only at h1 h2
      obtain ⟨h3, h4⟩ := ih (i + 1) fs1 calls1 s
      simp only [Migrate.outer, hin]
      exact ⟨h3.trans h1, h4.trans h2⟩
    · rw [hin] at h1 h2
      simp only [Migrate.outer, hin]
      exact ⟨h1, h2⟩

/-- A `Migrate` call issues no `IncUsage` or `DecUsage` and leaves the open-state list as it
was. -/
theorem Migrate_usage (env : Collaborators) (serv : Nat) (fs : FileSystem) (s : Nat) :
    usageChange (Migrate env serv fs).2.2 s = 0
    ∧ (Migrate env serv fs).2.1.fOpenFiles = fs.fOpenFiles := by
  by_cases hserv : serv = fs.fServer
  · by_cases hprobe : env.ProbeMigration = true
    · by_cases hfetch : env.GetLocations.1 = status_t.B_OK
      · obtain ⟨h1, h2⟩ := outer_usage env fs.fServer env.GetLocations.2.fLocations 0 fs
          [Call.ProbeMigration, Call.GetLocations] s
        have h0 : usageChange [Call.ProbeMigration, Call.GetLocations] s = 0 := by
          simp [usageChange]
        rw [h0] at h1
        rcases hout : Migrate.outer env fs.fServer 0 env.GetLocations.2.fLocations
          (fs, [Call.ProbeMigration, Call.GetLocations]) with ⟨_ | status, fs1, calls1⟩
        · rw [hout] at h1 h2
          simp only at h1 h2
          by_cases hsame : fs.fServer = fs1.fServer
          · simp only [Migrate, hserv, hprobe, hfetch, hout, ne_eq, not_true_eq_false,
              if_false, Bool.not_true, Bool.false_eq_true]
            rw [if_pos hsame]
            refine ⟨?_, h2⟩
            simp only
            rw [usageChange_append_not_usage]
            · exact h1
            · rfl
          · simp only [Migrate, hserv, hprobe, hfetch, hout, ne_eq, not_true_eq_false,
              if_false, Bool.not_true, Bool.false_eq_true]
            rw [if_neg hsame]
            refine ⟨?_, h2⟩
            simp only
            rw [usageChange_append, h1]
            simp [usageChange]
        · rw [hout] at h1 h2
          simp only [Migrate, hserv, hprobe, hfetch, hout, ne_eq, not_true_eq_false,
            if_false, Bool.not_true, Bool.false_eq_true]
          exact ⟨h1, h2⟩
      · simp [Migrate, hserv, hprobe, hfetch, usageChange]
    · simp [Migrate, hserv, hprobe, usageChange]
  · simp [Migrate, hserv, usageChange]

/-! ## The precondition of ParsePath at its call sites -/

/-- C30 (evaluation at the failing input): the session root path is `export` and the mount
path is `/export`, so `GetPath` returns NULL and the root identity that `Mount` builds has no
path. Refreshing that identity hands the NULL path to the second `ParsePath` call of
`UpdateFileHandles`: its assertion fails and the request is never sent. When the server
returns no locations attribute, the session root path itself is NULL and the first
`ParsePath` call fails its assertion. -/
theorem UpdateFileHandles_root_identity_null_path :
    (Mount envMountRelRoot 1 "/export".toList 7).outcome = Outcome.returned status_t.B_OK
    ∧ (Mount envMountRelRoot 1 "/export".toList 7).out.map (fun fs => fs.base.fPath)
        = some (some "export")
    ∧ (Mount envMountRelRoot 1 "/export".toList 7).out.map (fun fs => fs.fRoot.fInfo.fPath)
        = some none
    ∧ (Mount envMountRelRoot 1 "/export".toList 7).out.map
        (fun fs => (UpdateFileHandles envRefreshRoot fs.base fs.fRoot.fInfo).outcome)
        = some (Outcome.fault Fault.assertion)
    ∧ (Mount envMountRelRoot 1 "/export".toList 7).out.map
        (fun fs => (UpdateFileHandles envRefreshRoot fs.base fs.fRoot.fInfo).reply)
        = some []
    ∧ (Mount envMountNoLocations 1 "/export".toList 7).out.map (fun fs => fs.base.fPath)
        = some none
    ∧ (Mount envMountNoLocations 1 "/export".toList 7).out.map
        (fun fs => (UpdateFileHandles envRefreshRoot fs.base fs.fRoot.fInfo).outcome)
        = some (Outcome.fault Fault.assertion) := by
  decide

end NFS4
